import Mathlib

/-!
# Verification of the Grape Kademlia DHT simulator core

Shallow embedding of the Python sources under `Grape/` (`id_util.py`,
`routing_table.py`, `message.py`, `dht_node.py`, `event_queue.py`,
`dht_simulator.py`) and proofs about the frozen specification claims.

Conventions of the embedding:
* Python `bytes` values are modelled as `List Nat`, one entry per byte;
  hypotheses `b < 256` are added where a property depends on byte range.
* Python `int` virtual times are natural numbers; a Python comparison
  `a - b >= c` on ints is translated to `b + c ≤ a` (equivalent over ℤ
  for the non-negative times used by the simulator).
* Python dicts used as keyed tables (`pending_responses`,
  `file_providers`) are modelled as insertion-ordered association lists;
  an update-in-place keeps the position of the key, `pop` removes it.
* Hex encoding/decoding of IDs inside message payloads is a bijection on
  byte strings and is modelled as the identity.
* Python float arithmetic in the loss model is modelled exactly over ℚ.
* `uuid.uuid4()` and `os.urandom` draw from operating-system entropy;
  they are modelled as reads from explicit entropy-stream parameters,
  which is what the determinism claim C1 is about.
-/

namespace Grape

/-- A Python `bytes` value: the list of its byte values (each `< 256`). -/
abbrev Bytes := List Nat

/-- `int.from_bytes(b, byteorder='big')`: big-endian integer value of a
byte string. -/
def fromBytes (b : Bytes) : Nat :=
  b.foldl (fun acc x => acc * 256 + x) 0

/-- Helper for `bitLength`: counts halvings with explicit fuel so that
the function reduces definitionally (`Nat.log2` is defined by
well-founded recursion and would block kernel evaluation); `n`
halvings always suffice for input `n`. -/
def bitLengthAux : Nat → Nat → Nat
  | _, 0 => 0
  | fuel + 1, n + 1 => bitLengthAux fuel ((n + 1) / 2) + 1
  | 0, _ + 1 => 0

/-- Python `int.bit_length()` for a non-negative integer: `0` for `0`,
else `⌊log₂ n⌋ + 1` (see `bitLength_eq_log2`). -/
def bitLength (n : Nat) : Nat :=
  bitLengthAux n n

namespace IDUtil

/-- `IDUtil.calculate_distance` (id_util.py lines 22-30): byte-wise XOR
interpreted as a big-endian unsigned integer.  The source raises
`ValueError` when the lengths differ; every use below is at equal
lengths (added as hypotheses where relevant), where `List.zipWith`
coincides with Python's `zip`. -/
def calculate_distance (id1 id2 : Bytes) : Nat :=
  fromBytes (List.zipWith Nat.xor id1 id2)

/-- `IDUtil.get_bucket_index` (id_util.py lines 32-38): `-1` when the
distance is zero, else `bit_length(distance) - 1`. -/
def get_bucket_index (selfId otherId : Bytes) : Int :=
  let distance := calculate_distance selfId otherId
  if distance = 0 then -1 else (bitLength distance : Int) - 1

end IDUtil

/-- One contact stored in a K-bucket: the dict
`{'id': …, 'address': …, 'last_seen': …}` built in
`KBucket.add_node` (routing_table.py lines 30-34). -/
structure NodeEntry where
  id : Bytes
  address : Bytes
  last_seen : Nat
deriving DecidableEq

/-- `KBucket` (routing_table.py lines 6-74): an ordered list of contacts,
least-recently seen at the head, with capacity `k_value`. -/
structure KBucket where
  nodes : List NodeEntry
  k_value : Nat
deriving DecidableEq

/-- The `for i, node in enumerate(...): if node['id'] == …: pop(i)`
pattern of `KBucket.add_node`/`remove_node`: remove the first entry
with the given id, or `none` if no entry matches. -/
def removeFirstById : List NodeEntry → Bytes → Option (List NodeEntry)
  | [], _ => none
  | n :: ns, node_id =>
    if n.id = node_id then some ns
    else (removeFirstById ns node_id).map (fun r => n :: r)

namespace KBucket

/-- `KBucket.contains` (routing_table.py lines 12-14). -/
def contains (b : KBucket) (node_id : Bytes) : Bool :=
  b.nodes.any (fun n => n.id = node_id)

/-- `KBucket.add_node` (routing_table.py lines 23-48).  If the id is
present, the entry is removed from its position and a fresh entry
appended at the tail; if absent and there is room, the fresh entry is
appended; if absent and the bucket is full, returns `False` and leaves
the bucket unchanged. -/
def add_node (b : KBucket) (node_id address : Bytes) (last_seen : Nat) :
    Bool × KBucket :=
  match removeFirstById b.nodes node_id with
  | some rest =>
      (true, { b with nodes := rest ++ [⟨node_id, address, last_seen⟩] })
  | none =>
      if b.nodes.length < b.k_value then
        (true, { b with nodes := b.nodes ++ [⟨node_id, address, last_seen⟩] })
      else
        (false, b)

/-- `KBucket.remove_node` (routing_table.py lines 50-56). -/
def remove_node (b : KBucket) (node_id : Bytes) : Bool × KBucket :=
  match removeFirstById b.nodes node_id with
  | some rest => (true, { b with nodes := rest })
  | none => (false, b)

/-- `KBucket.get_nodes` (routing_table.py lines 58-60). -/
def get_nodes (b : KBucket) : List NodeEntry :=
  b.nodes

/-- `KBucket.size` (routing_table.py lines 68-70). -/
def size (b : KBucket) : Nat :=
  b.nodes.length

end KBucket

/-- `RoutingTable` (routing_table.py lines 76-150): `id_bits` K-buckets
indexed by common-prefix bucket index. -/
structure RoutingTable where
  node_id : Bytes
  k_value : Nat
  id_bits : Nat
  buckets : List KBucket
deriving DecidableEq

namespace RoutingTable

/-- `RoutingTable.__init__` (routing_table.py lines 78-83). -/
def init (node_id : Bytes) (k_value : Nat := 8) (id_bits : Nat := 160) :
    RoutingTable :=
  { node_id := node_id, k_value := k_value, id_bits := id_bits,
    buckets := List.replicate id_bits ⟨[], k_value⟩ }

/-- `RoutingTable.update` (routing_table.py lines 85-98): refuses its own
id and invalid bucket indices, otherwise delegates to
`KBucket.add_node` on the bucket selected by `get_bucket_index`.
An index beyond the bucket list (unreachable for well-formed ids) is
modelled as a no-op returning the bucket default; the source would
raise `IndexError` there. -/
def update (rt : RoutingTable) (node_id address : Bytes) (last_seen : Nat) :
    Bool × RoutingTable :=
  if node_id = rt.node_id then (false, rt)
  else
    let bucket_index := IDUtil.get_bucket_index rt.node_id node_id
    if bucket_index < 0 then (false, rt)
    else
      let i := bucket_index.toNat
      let bucket := rt.buckets.getD i ⟨[], rt.k_value⟩
      let r := bucket.add_node node_id address last_seen
      (r.1, { rt with buckets := rt.buckets.set i r.2 })

/-- All contacts of the table in bucket order (the iteration order of
`find_closest_nodes` and the contents of `get_all_nodes`,
routing_table.py lines 126-131). -/
def all_nodes (rt : RoutingTable) : List NodeEntry :=
  rt.buckets.flatMap KBucket.get_nodes

/-- `RoutingTable.find_closest_nodes` (routing_table.py lines 100-116):
collect `(distance, node)` for every contact of every bucket, sort by
distance (Python's stable `sort` with `key=lambda x: x[0]`, modelled
by `List.insertionSort` on the distance component — the keys are
distinct for well-formed tables, so any sorted permutation agrees),
and return the first `count` nodes.  `count = none` models the Python
default `count=None`, replaced by `k_value`. -/
def find_closest_nodes (rt : RoutingTable) (target_id : Bytes)
    (count : Option Nat := none) : List NodeEntry :=
  let count := count.getD rt.k_value
  let nodes_with_distance :=
    (rt.all_nodes).map
      (fun n => (IDUtil.calculate_distance target_id n.id, n))
  let sorted := nodes_with_distance.insertionSort (fun a b => a.1 ≤ b.1)
  (sorted.take count).map (fun x => x.2)

/-- `RoutingTable.remove_node` (routing_table.py lines 118-124). -/
def remove_node (rt : RoutingTable) (node_id : Bytes) :
    Bool × RoutingTable :=
  let bucket_index := IDUtil.get_bucket_index rt.node_id node_id
  if bucket_index < 0 then (false, rt)
  else
    let i := bucket_index.toNat
    let bucket := rt.buckets.getD i ⟨[], rt.k_value⟩
    let r := bucket.remove_node node_id
    (r.1, { rt with buckets := rt.buckets.set i r.2 })

/-- The method names defined by `class RoutingTable`
(routing_table.py lines 76-150).  Notably `update_last_seen`, called
by `DHTNode._handle_pong` (dht_node.py line 192), is not among them:
that call raises `AttributeError` at runtime. -/
def definedMethods : List String :=
  ["__init__", "update", "find_closest_nodes", "remove_node",
   "get_all_nodes", "get_bucket_for_node", "get_stats"]

end RoutingTable

/-- Transaction identifiers.  The source uses `str(uuid.uuid4())`
(message.py line 32); we model the opaque token as a natural number. -/
abbrev TxId := Nat

/-- `MessageType` (message.py lines 6-19). -/
inductive MessageType where
  | ping | pong | find_node | find_node_response
  | find_value | find_value_response | store | store_response
  | bootstrap | announce
deriving DecidableEq

/-- A provider record `{'address': …, 'last_seen': …}`
(dht_node.py lines 419-422, 478-481). -/
structure Provider where
  address : Bytes
  last_seen : Nat
deriving DecidableEq

/-- The string-keyed `content` dict of a message, modelled as a tagged
value per payload shape (spec §6).  `Option` fields model keys whose
absence the handlers test with `dict.get`; provider records carry an
optional `last_seen` because `_handle_find_value_response` defaults a
missing one to the delivery time (dht_node.py line 406). -/
inductive Content where
  | ping (retry_count : Nat)
  | pong (retry_count : Nat)
  | find_node (target : Option Bytes)
  | find_node_response (nodes : List (Bytes × Bytes))
  | find_value (key : Option Bytes)
  | find_value_response (found : Bool) (key : Bytes)
      (providers : List (Bytes × Option Nat)) (nodes : List (Bytes × Bytes))
  | store (key : Option Bytes) (provider : Option Bytes)
  | store_response
  | empty
deriving DecidableEq

namespace Content

/-- `content.get("retry_count", 0)` (dht_node.py line 176). -/
def getRetryCount : Content → Nat
  | .ping n => n
  | .pong n => n
  | _ => 0

/-- `content.get("target")` (dht_node.py line 249). -/
def getTarget : Content → Option Bytes
  | .find_node t => t
  | _ => none

/-- `content.get("nodes", [])` (dht_node.py lines 273, 424). -/
def getNodes : Content → List (Bytes × Bytes)
  | .find_node_response ns => ns
  | .find_value_response _ _ _ ns => ns
  | _ => []

/-- `content.get("key")` (dht_node.py lines 349, 458). -/
def getKey : Content → Option Bytes
  | .find_value k => k
  | .store k _ => k
  | _ => none

/-- `content.get("provider")` (dht_node.py line 459). -/
def getProvider : Content → Option Bytes
  | .store _ p => p
  | _ => none

/-- `content.get("found", False)` (dht_node.py line 401). -/
def getFound : Content → Bool
  | .find_value_response f _ _ _ => f
  | _ => false

/-- `content.get("providers", [])` (dht_node.py line 402). -/
def getProviders : Content → List (Bytes × Option Nat)
  | .find_value_response _ _ ps _ => ps
  | _ => []

end Content

/-- `Message` (message.py lines 21-34).  `send_time`/`delivery_time`
start as `None` and are filled in by the simulator; handlers only ever
see delivered messages, whose `delivery_time` is set. -/
structure Message where
  type : MessageType
  source_id : Bytes
  target_id : Bytes
  content : Content
  transaction_id : TxId
  send_time : Option Nat := none
  delivery_time : Option Nat := none
deriving DecidableEq

namespace Message

/-- The delivery time read by handlers (always set at delivery;
defaulted to 0 to keep the model total). -/
def deliveryD (m : Message) : Nat :=
  m.delivery_time.getD 0

/-- `Message.create_response` (message.py lines 62-84): swap source and
target, keep the transaction id.  Every call in dht_node.py passes the
response type explicitly, so the `msg_type=None` auto-mapping path of
the source is never exercised and is not modelled. -/
def create_response (m : Message) (content : Content)
    (msg_type : MessageType) : Message :=
  { type := msg_type, source_id := m.target_id, target_id := m.source_id,
    content := content, transaction_id := m.transaction_id }

end Message

/-- `EventType` (event_system.py lines 6-23). -/
inductive EventType where
  | simulation_start | simulation_tick | simulation_end
  | node_join | node_leave | file_publish | file_retrieve
  | message_sent | message_received | message_dropped
deriving DecidableEq

/-- `Event` (event_system.py lines 25-34).  Of the `params` dict we
model the `node_id` entry read by `DHTNode.handle_event`
(dht_node.py lines 117-118); a `NODE_LEAVE` event without that key
would raise in the source and is never scheduled by the drivers. -/
structure Event where
  etype : EventType
  time : Nat
  params_node_id : Option Bytes := none
deriving DecidableEq

/-- A heap entry `(event.time, self._counter, event)`
(event_queue.py line 14). -/
structure QEntry where
  time : Nat
  ctr : Nat
  ev : Event
deriving DecidableEq

/-- Lexicographic comparison of heap entries on `(time, ctr)` — the
order `heapq` maintains.  Counters are unique, so Python's tuple
comparison never reaches the third component. -/
def QEntry.keyLe (a b : QEntry) : Bool :=
  a.time < b.time || (a.time = b.time && a.ctr ≤ b.ctr)

/-- Insert an entry into a list kept sorted by `(time, ctr)`. -/
def insertEntry (x : QEntry) : List QEntry → List QEntry
  | [] => [x]
  | y :: ys => if x.keyLe y then x :: y :: ys else y :: insertEntry x ys

/-- `EventQueue` (event_queue.py lines 6-28).  The source stores a
binary min-heap of `(time, counter, event)` tuples; `heappop` returns
the lexicographically least tuple.  We model the heap by its
observable behaviour: the list of entries kept sorted by
`(time, counter)`, whose head is exactly the heap minimum. -/
structure EventQueue where
  queue : List QEntry := []
  counter : Nat := 0
deriving DecidableEq

namespace EventQueue

/-- `EventQueue.schedule` (event_queue.py lines 11-16): push the entry
`(event.time, self._counter, event)` and increment the counter. -/
def schedule (q : EventQueue) (e : Event) : EventQueue :=
  { queue := insertEntry ⟨e.time, q.counter, e⟩ q.queue,
    counter := q.counter + 1 }

/-- `EventQueue.pop_event` (event_queue.py lines 24-28): pop the least
entry, `None` when empty.  The source returns `entry[2]`; we return
the whole entry so statements can refer to the insertion counter. -/
def pop_event (q : EventQueue) : Option QEntry × EventQueue :=
  match q.queue with
  | [] => (none, q)
  | x :: xs => (some x, { q with queue := xs })

end EventQueue

/-- One client operation on the event queue. -/
inductive QOp where
  | schedule (e : Event)
  | pop
deriving DecidableEq

/-- A queue together with the history of popped entries. -/
structure QTrace where
  q : EventQueue := {}
  popped : List QEntry := []
deriving DecidableEq

/-- Execute one operation against the queue, recording pops. -/
def QTrace.step (s : QTrace) : QOp → QTrace
  | .schedule e => { s with q := s.q.schedule e }
  | .pop =>
    match s.q.pop_event with
    | (none, q') => { s with q := q' }
    | (some x, q') => { q := q', popped := s.popped ++ [x] }

/-- Execute a sequence of schedule/pop operations. -/
def runOps (s : QTrace) (ops : List QOp) : QTrace :=
  ops.foldl QTrace.step s

/-- `True` iff every `schedule` in the sequence carries a time no
earlier than every event popped before it — the discipline the
simulator obeys (it never schedules into the past: delivery and drop
times are `send_time + …` with `send_time` the current time). -/
def noPastScheduling : QTrace → List QOp → Bool
  | _, [] => true
  | s, op :: ops =>
    (match op with
     | .schedule e => s.popped.all (fun p => p.time ≤ e.time)
     | .pop => true) && noPastScheduling (s.step op) ops

/-- A pending-request record (dht_node.py lines 165-170, 239-243,
326-330, 448-452): the dict `{type, time, retry_count?, target_id?,
data:{file_id?}}`.  Fields absent for a given kind keep their
defaults and are never read for that kind by the source. -/
structure PendingInfo where
  kind : String
  time : Nat
  retry_count : Nat := 0
  target_id : Bytes := []
  file_id : Option Bytes := none
deriving DecidableEq

/-- Dict lookup `d.get(t)` on the pending table. -/
def pendingLookup (p : List (TxId × PendingInfo)) (t : TxId) :
    Option PendingInfo :=
  (p.find? (fun e => e.1 = t)).map (fun e => e.2)

/-- Dict `pop(t)`: the key disappears. -/
def pendingErase (p : List (TxId × PendingInfo)) (t : TxId) :
    List (TxId × PendingInfo) :=
  p.filter (fun e => e.1 ≠ t)

/-- Dict `d[t] = v`: update in place when present (keeping insertion
order), else append. -/
def pendingSet (p : List (TxId × PendingInfo)) (t : TxId)
    (v : PendingInfo) : List (TxId × PendingInfo) :=
  if p.any (fun e => e.1 = t) then
    p.map (fun e => if e.1 = t then (t, v) else e)
  else p ++ [(t, v)]

/-- Lookup in the `file_providers` dict. -/
def providersLookup (fp : List (Bytes × List Provider)) (fid : Bytes) :
    Option (List Provider) :=
  (fp.find? (fun e => e.1 = fid)).map (fun e => e.2)

/-- `file_providers[fid] = l`: update in place when present, else
append. -/
def providersSet (fp : List (Bytes × List Provider)) (fid : Bytes)
    (l : List Provider) : List (Bytes × List Provider) :=
  if fp.any (fun e => e.1 = fid) then
    fp.map (fun e => if e.1 = fid then (fid, l) else e)
  else fp ++ [(fid, l)]

/-- The provider-merge loop (dht_node.py lines 411-422 and 470-481):
refresh `last_seen` of the first record with the same address, else
append a new record at the end. -/
def mergeProvider : List Provider → Bytes → Nat → List Provider
  | [], addr, ls => [⟨addr, ls⟩]
  | p :: ps, addr, ls =>
    if p.address = addr then ⟨p.address, ls⟩ :: ps
    else p :: mergeProvider ps addr ls

/-- Python exceptions that can escape the embedded code. -/
inductive PyError where
  | attributeError (cls attr : String)
deriving DecidableEq

/-- Supply of fresh transaction ids, standing for the successive
`str(uuid.uuid4())` draws (message.py line 32). -/
structure Gen where
  txs : Nat → TxId
  i : Nat := 0

/-- Draw the next fresh transaction id. -/
def Gen.next (g : Gen) : TxId × Gen :=
  (g.txs g.i, { g with i := g.i + 1 })

/-- `DHTNode` state (dht_node.py lines 15-32). -/
structure DHTNode where
  node_id : Bytes
  address : Bytes
  k_value : Nat := 8
  id_bits : Nat := 160
  routing_table : RoutingTable
  file_providers : List (Bytes × List Provider) := []
  owned_files : List Bytes := []
  is_online : Bool := false
  pending_responses : List (TxId × PendingInfo) := []
  last_check_time : Nat := 0
deriving DecidableEq

namespace DHTNode

/-- `DHTNode.PING_TIMEOUT` (dht_node.py line 12): 2000 virtual ms. -/
def PING_TIMEOUT : Nat := 2000

/-- `DHTNode.MAX_RETRIES` (dht_node.py line 13). -/
def MAX_RETRIES : Nat := 2

/-- `DHTNode._send_ping` (dht_node.py lines 152-172): record a pending
`ping` and hand the message to the simulator.  Returned messages are
those passed to `simulator.send_message`, stamped with their send
time. -/
def send_ping (s : DHTNode) (g : Gen) (target_id : Bytes)
    (send_time : Nat) : DHTNode × List Message × Gen :=
  let (tx, g') := g.next
  let msg : Message :=
    { type := .ping, source_id := s.node_id, target_id := target_id,
      content := .ping 0, transaction_id := tx,
      send_time := some send_time }
  ({ s with pending_responses :=
      (pendingSet s.pending_responses tx
        { kind := "ping", time := send_time, retry_count := 0,
          target_id := target_id }) },
   [msg], g')

/-- `DHTNode._send_find_node` (dht_node.py lines 227-245).  The `data`
dict carries at most a `file_id` ever read again
(`_handle_find_node_response`, line 290). -/
def send_find_node (s : DHTNode) (g : Gen) (target_id node_id_to_find :
    Bytes) (callback_type : String) (file_id : Option Bytes)
    (send_time : Nat) : DHTNode × List Message × Gen :=
  let (tx, g') := g.next
  let msg : Message :=
    { type := .find_node, source_id := s.node_id, target_id := target_id,
      content := .find_node (some node_id_to_find), transaction_id := tx,
      send_time := some send_time }
  ({ s with pending_responses :=
      (pendingSet s.pending_responses tx
        { kind := callback_type, time := send_time, file_id := file_id }) },
   [msg], g')

/-- `DHTNode._send_find_value` (dht_node.py lines 316-332). -/
def send_find_value (s : DHTNode) (g : Gen) (target_id file_id : Bytes)
    (send_time : Nat) : DHTNode × List Message × Gen :=
  let (tx, g') := g.next
  let msg : Message :=
    { type := .find_value, source_id := s.node_id, target_id := target_id,
      content := .find_value (some file_id), transaction_id := tx,
      send_time := some send_time }
  ({ s with pending_responses :=
      (pendingSet s.pending_responses tx
        { kind := "find_value", time := send_time,
          file_id := some file_id }) },
   [msg], g')

/-- `DHTNode._send_store` (dht_node.py lines 434-454). -/
def send_store (s : DHTNode) (g : Gen) (target_id file_id
    provider_address : Bytes) (send_time : Nat) :
    DHTNode × List Message × Gen :=
  let (tx, g') := g.next
  let msg : Message :=
    { type := .store, source_id := s.node_id, target_id := target_id,
      content := .store (some file_id) (some provider_address),
      transaction_id := tx, send_time := some send_time }
  ({ s with pending_responses :=
      (pendingSet s.pending_responses tx
        { kind := "store", time := send_time, file_id := some file_id }) },
   [msg], g')

/-- `DHTNode._find_closest_nodes` (dht_node.py lines 299-314): send a
`FIND_NODE` to each of the closest known contacts. -/
def find_closest_nodes_op (s : DHTNode) (g : Gen) (target_id : Bytes)
    (callback_type : String) (file_id : Option Bytes) (event_time : Nat) :
    DHTNode × List Message × Gen :=
  let closest := s.routing_table.find_closest_nodes target_id
  if closest = [] then (s, [], g)
  else
    closest.foldl
      (fun acc n =>
        let r := send_find_node acc.1 acc.2.2 n.id target_id
          callback_type file_id event_time
        (r.1, acc.2.1 ++ r.2.1, r.2.2))
      (s, [], g)

/-- `DHTNode.publish_file` (dht_node.py lines 64-79): when online, add
the file to `owned_files` (a Python set: adding an existing element is
a no-op) and look up the closest nodes under the `store_file`
callback. -/
def publish_file (s : DHTNode) (g : Gen) (file_id : Bytes) (now : Nat) :
    DHTNode × List Message × Gen :=
  if ¬ s.is_online then (s, [], g)
  else
    let s := { s with owned_files :=
      (if file_id ∈ s.owned_files then s.owned_files
       else s.owned_files ++ [file_id]) }
    find_closest_nodes_op s g file_id "store_file" (some file_id) now

/-- `DHTNode._find_value` (dht_node.py lines 334-345). -/
def find_value_op (s : DHTNode) (g : Gen) (file_id : Bytes)
    (event_time : Nat) : DHTNode × List Message × Gen :=
  if file_id ∈ s.owned_files then (s, [], g)
  else
    let closest := s.routing_table.find_closest_nodes file_id
    if closest = [] then (s, [], g)
    else
      closest.foldl
        (fun acc n =>
          let r := send_find_value acc.1 acc.2.2 n.id file_id event_time
          (r.1, acc.2.1 ++ r.2.1, r.2.2))
        (s, [], g)

/-- `DHTNode.retrieve_file` (dht_node.py lines 81-88). -/
def retrieve_file (s : DHTNode) (g : Gen) (file_id : Bytes) (now : Nat) :
    DHTNode × List Message × Gen :=
  if ¬ s.is_online then (s, [], g)
  else find_value_op s g file_id now

/-- `DHTNode._handle_ping` (dht_node.py lines 174-183). -/
def handle_ping (s : DHTNode) (m : Message) : DHTNode × Option Message :=
  let retry_count := m.content.getRetryCount
  (s, some { m.create_response (.pong retry_count) .pong with
             send_time := m.delivery_time })

/-- `DHTNode._handle_pong` (dht_node.py lines 185-194).  When the
transaction matches a pending `ping`, the source then calls
`self.routing_table.update_last_seen(...)` (line 192) — a method
`class RoutingTable` does not define (see
`RoutingTable.definedMethods`), so Python raises `AttributeError`
there; the pending record has already been popped. -/
def handle_pong (s : DHTNode) (m : Message) :
    Except PyError (DHTNode × Option Message) :=
  match pendingLookup s.pending_responses m.transaction_id with
  | none => .ok (s, none)
  | some callback_info =>
    let s := { s with pending_responses :=
      (pendingErase s.pending_responses m.transaction_id) }
    if callback_info.kind = "ping" then
      .error (.attributeError "RoutingTable" "update_last_seen")
    else
      .ok (s, none)

/-- `DHTNode._handle_ping_timeout` (dht_node.py lines 196-225). -/
def handle_ping_timeout (s : DHTNode) (g : Gen) (now : Nat)
    (transaction_id : TxId) : DHTNode × List Message × Gen :=
  match pendingLookup s.pending_responses transaction_id with
  | none => (s, [], g)
  | some info =>
    if info.kind ≠ "ping" then (s, [], g)
    else if info.retry_count < MAX_RETRIES then
      let retry_count := info.retry_count + 1
      let (tx, g') := g.next
      let msg : Message :=
        { type := .ping, source_id := s.node_id,
          target_id := info.target_id, content := .ping retry_count,
          transaction_id := tx, send_time := some now }
      ({ s with pending_responses :=
          (pendingSet s.pending_responses transaction_id
            { info with retry_count := retry_count, time := now }) },
       [msg], g')
    else
      ({ s with
          routing_table := (s.routing_table.remove_node info.target_id).2,
          pending_responses :=
            (pendingErase s.pending_responses transaction_id) },
       [], g)

/-- `DHTNode.handle_event` (dht_node.py lines 90-118).  The Python test
`current_time - self.last_check_time >= 100` on ints is
`last_check_time + 100 ≤ now`; likewise for the 2000 ms timeout. -/
def handle_event (s : DHTNode) (g : Gen) (now : Nat) (e : Event) :
    DHTNode × List Message × Gen :=
  match e.etype with
  | .simulation_tick =>
    if s.last_check_time + 100 ≤ now then
      let s := { s with last_check_time := now }
      let timeouts :=
        (s.pending_responses.filter
          (fun x => x.2.kind = "ping" ∧ x.2.time + PING_TIMEOUT ≤ now)).map
          (fun x => x.1)
      timeouts.foldl
        (fun acc t =>
          let r := handle_ping_timeout acc.1 acc.2.2 now t
          (r.1, acc.2.1 ++ r.2.1, r.2.2))
        (s, [], g)
    else (s, [], g)
  | .node_leave =>
    match e.params_node_id with
    | some nid =>
      if nid ≠ s.node_id then
        ({ s with routing_table := (s.routing_table.remove_node nid).2 },
         [], g)
      else (s, [], g)
    | none => (s, [], g)
  | _ => (s, [], g)

/-- `DHTNode._handle_find_node` (dht_node.py lines 247-265). -/
def handle_find_node (s : DHTNode) (m : Message) :
    DHTNode × Option Message :=
  match m.content.getTarget with
  | none => (s, none)
  | some target_id =>
    let closest := s.routing_table.find_closest_nodes target_id
    let node_list := closest.map (fun n => (n.id, n.address))
    (s, some { m.create_response (.find_node_response node_list)
                 .find_node_response with
               send_time := m.delivery_time })

/-- `DHTNode._handle_find_node_response` (dht_node.py lines 267-297). -/
def handle_find_node_response (s : DHTNode) (g : Gen) (m : Message) :
    DHTNode × List Message × Gen :=
  match pendingLookup s.pending_responses m.transaction_id with
  | none => (s, [], g)
  | some callback_info =>
    let s := { s with pending_responses :=
      (pendingErase s.pending_responses m.transaction_id) }
    let nodes := m.content.getNodes
    let s := nodes.foldl
      (fun s n =>
        { s with routing_table := (s.routing_table.update n.1 n.2
            m.deliveryD).2 })
      s
    if callback_info.kind = "join_network" then
      (nodes.filter (fun n => n.1 ≠ s.node_id)).foldl
        (fun acc n =>
          let r := send_ping acc.1 acc.2.2 n.1 m.deliveryD
          (r.1, acc.2.1 ++ r.2.1, r.2.2))
        (s, [], g)
    else if callback_info.kind = "store_file" then
      match callback_info.file_id with
      | some file_id =>
        (nodes.filter (fun n => n.1 ≠ s.node_id)).foldl
          (fun acc n =>
            let r := send_store acc.1 acc.2.2 n.1 file_id s.address
              m.deliveryD
            (r.1, acc.2.1 ++ r.2.1, r.2.2))
          (s, [], g)
      | none => (s, [], g)
    else (s, [], g)

/-- `DHTNode._handle_find_value` (dht_node.py lines 347-386). -/
def handle_find_value (s : DHTNode) (m : Message) :
    DHTNode × Option Message :=
  match m.content.getKey with
  | none => (s, none)
  | some file_id =>
    match providersLookup s.file_providers file_id with
    | some provs =>
      let providers := provs.map (fun p => (p.address, some p.last_seen))
      (s, some { m.create_response
                   (.find_value_response true file_id providers [])
                   .find_value_response with
                 send_time := m.delivery_time })
    | none =>
      let closest := s.routing_table.find_closest_nodes file_id
      let node_list := closest.map (fun n => (n.id, n.address))
      (s, some { m.create_response
                   (.find_value_response false file_id [] node_list)
                   .find_value_response with
                 send_time := m.delivery_time })

/-- `DHTNode._handle_find_value_response` (dht_node.py lines 388-432). -/
def handle_find_value_response (s : DHTNode) (g : Gen) (m : Message) :
    DHTNode × List Message × Gen :=
  match pendingLookup s.pending_responses m.transaction_id with
  | none => (s, [], g)
  | some callback_info =>
    let s := { s with pending_responses :=
      (pendingErase s.pending_responses m.transaction_id) }
    if callback_info.kind ≠ "find_value" then (s, [], g)
    else
      match callback_info.file_id with
      | none => (s, [], g)
      | some file_id =>
        if m.content.getFound then
          let s := (m.content.getProviders).foldl
            (fun s pr =>
              let last_seen := pr.2.getD m.deliveryD
              let provs := (providersLookup s.file_providers file_id).getD []
              { s with file_providers :=
                  (providersSet s.file_providers file_id
                    (mergeProvider provs pr.1 last_seen)) })
            s
          (s, [], g)
        else
          (m.content.getNodes).foldl
            (fun acc n =>
              let s := { acc.1 with routing_table :=
                (acc.1.routing_table.update n.1 n.2 m.deliveryD).2 }
              let r := send_find_value s acc.2.2 n.1 file_id m.deliveryD
              (r.1, acc.2.1 ++ r.2.1, r.2.2))
            (s, [], g)

/-- `DHTNode._handle_store` (dht_node.py lines 456-485). -/
def handle_store (s : DHTNode) (m : Message) : DHTNode × Option Message :=
  match m.content.getKey, m.content.getProvider with
  | some file_id, some provider_address =>
    let provs := (providersLookup s.file_providers file_id).getD []
    let s := { s with file_providers :=
      (providersSet s.file_providers file_id
        (mergeProvider provs provider_address m.deliveryD)) }
    (s, some { m.create_response .store_response .store_response with
               send_time := m.delivery_time })
  | _, _ => (s, none)

/-- `DHTNode._handle_store_response` (dht_node.py lines 487-491). -/
def handle_store_response (s : DHTNode) (m : Message) :
    DHTNode × Option Message :=
  if s.pending_responses.any (fun e => e.1 = m.transaction_id) then
    ({ s with pending_responses :=
        (pendingErase s.pending_responses m.transaction_id) }, none)
  else (s, none)

/-- `DHTNode.handle_message` (dht_node.py lines 120-150): offline nodes
ignore everything; otherwise the routing table is refreshed with the
sender — passing `source_id` as *both* id and address, the known
source quirk (spec §9) — and the message is dispatched by type.
Result: `(state, outbound messages, response, fresh-id supply)`. -/
def handle_message (s : DHTNode) (g : Gen) (m : Message) :
    Except PyError (DHTNode × List Message × Option Message × Gen) :=
  if ¬ s.is_online then .ok (s, [], none, g)
  else
    let s := { s with routing_table :=
      ((s.routing_table.update m.source_id m.source_id m.deliveryD).2) }
    match m.type with
    | .ping =>
      let r := handle_ping s m
      .ok (r.1, [], r.2, g)
    | .pong =>
      (handle_pong s m).map (fun r => (r.1, [], r.2, g))
    | .find_node =>
      let r := handle_find_node s m
      .ok (r.1, [], r.2, g)
    | .find_node_response =>
      let r := handle_find_node_response s g m
      .ok (r.1, r.2.1, none, r.2.2)
    | .find_value =>
      let r := handle_find_value s m
      .ok (r.1, [], r.2, g)
    | .find_value_response =>
      let r := handle_find_value_response s g m
      .ok (r.1, r.2.1, none, r.2.2)
    | .store =>
      let r := handle_store s m
      .ok (r.1, [], r.2, g)
    | .store_response =>
      let r := handle_store_response s m
      .ok (r.1, [], r.2, g)
    | _ => .ok (s, [], none, g)

end DHTNode

namespace DHTSimulator

/-- The inner `normalize_address` of
`DHTSimulator.calculate_packet_loss_rate` (dht_simulator.py lines
162-165): left-pad short addresses with zero bytes; truncate long
addresses with `addr[:4]` — the *first* (big-endian most-significant)
four bytes. -/
def normalize_address (addr : Bytes) : Bytes :=
  if addr.length < 4 then List.replicate (4 - addr.length) 0 ++ addr
  else addr.take 4

/-- `DHTSimulator.calculate_packet_loss_rate` (dht_simulator.py lines
159-180), with the float arithmetic modelled exactly over ℚ.  `base`
is `config.get("network.base_packet_loss", 0.1)` and `variation` the
`self.random.uniform(-0.05, 0.05)` draw, both passed as parameters. -/
def calculate_packet_loss_rate (source_address target_address : Bytes)
    (base variation : ℚ) : ℚ :=
  let source := normalize_address source_address
  let target := normalize_address target_address
  let distance := IDUtil.calculate_distance source target
  let distance_factor : ℚ := (distance : ℚ) / (2 ^ 32 - 1)
  let packet_loss_rate := base + distance_factor * (2 / 10)
  min 1 (max 0 (packet_loss_rate + variation))

end DHTSimulator

/-- `os.urandom(n)` (id_util.py line 10): `n` bytes from the operating
system's entropy pool — *not* from the simulator's seeded
`random.Random` (dht_simulator.py line 24).  The pool is modelled as
an explicit stream: `entropy d i` is byte `i` of draw `d`. -/
def osUrandom (entropy : Nat → Nat → Nat) (draw : Nat) (n : Nat) : Bytes :=
  (List.range n).map (entropy draw)

/-- `IDUtil.generate_random_id` (id_util.py lines 7-10):
`os.urandom(bits // 8)`. -/
def IDUtil.generate_random_id (entropy : Nat → Nat → Nat) (draw : Nat)
    (bits : Nat := 160) : Bytes :=
  osUrandom entropy draw (bits / 8)

/-- `uuid.uuid4()` (message.py line 32, event_system.py line 27): 16
bytes of OS entropy. -/
def uuid4 (entropy : Nat → Nat → Nat) (draw : Nat) : Bytes :=
  osUrandom entropy draw 16

/-- The sequence of node ids generated during a run.  A run is
parametrised by the configured seed (which feeds the simulator RNG,
`random.Random(seed)`, dht_simulator.py line 24) and by the OS entropy
consumed.  Because `IDUtil.generate_random_id` reads `os.urandom`, the
trace is a function of the entropy stream alone — the seed does not
enter. -/
def idTrace (seed : Nat) (entropy : Nat → Nat → Nat) (ndraws : Nat) :
    List Bytes :=
  (List.range ndraws).map (fun d => IDUtil.generate_random_id entropy d 160)

/-- The sequence of message transaction ids generated during a run, as
drawn by `Message.__init__` via `uuid.uuid4()` (message.py line 32):
again a function of the OS entropy stream alone, not of the seed. -/
def txTrace (seed : Nat) (entropy : Nat → Nat → Nat) (ndraws : Nat) :
    List Bytes :=
  (List.range ndraws).map (fun d => uuid4 entropy d)

/-- Well-formedness of a routing table, as maintained by `update`
(spec §3: every contact placed in bucket `i` has
`bucket_index(self_id, c.node_id) == i`) together with the per-bucket
no-duplicate invariant. -/
def RoutingTable.WF (rt : RoutingTable) : Prop :=
  (∀ j : Nat, ∀ h : j < rt.buckets.length,
     ∀ e ∈ (rt.buckets.get ⟨j, h⟩).nodes,
       IDUtil.get_bucket_index rt.node_id e.id = (j : Int)) ∧
  (∀ bkt ∈ rt.buckets, ((bkt.nodes.map NodeEntry.id).Nodup))

/-- Strict lexicographic comparison of heap entries on `(time, ctr)`:
Python's tuple `<` for entries with distinct counters. -/
def entryKeyLt (a b : QEntry) : Prop :=
  a.time < b.time ∨ (a.time = b.time ∧ a.ctr < b.ctr)

/-- Invariant of a queue/history pair maintained by every schedule/pop
step: the queue is strictly sorted on `(time, ctr)`, all counters are
fresh with respect to the next counter, popped entries precede queued
entries of equal time in counter order, and equal-time popped entries
left in counter (i.e. scheduling) order. -/
def QInv (s : QTrace) : Prop :=
  s.q.queue.Pairwise entryKeyLt ∧
  (∀ e ∈ s.q.queue, e.ctr < s.q.counter) ∧
  (∀ p ∈ s.popped, p.ctr < s.q.counter) ∧
  (∀ p ∈ s.popped, ∀ e ∈ s.q.queue, p.time = e.time → p.ctr < e.ctr) ∧
  s.popped.Pairwise (fun a b => a.time = b.time → a.ctr < b.ctr)

/-- Additional invariant available when no operation schedules into the
past: every queued event is no earlier than every popped one, and the
popped times are non-decreasing. -/
def QInvPast (s : QTrace) : Prop :=
  (∀ p ∈ s.popped, ∀ e ∈ s.q.queue, p.time ≤ e.time) ∧
  s.popped.Chain' (fun a b => a.time ≤ b.time)

/-- Lexicographic order on byte strings (the deterministic tie-break
order named by the spec for `find_closest`). -/
def bytesLexLe (a b : Bytes) : Prop :=
  a = b ∨ List.Lex (· < ·) a b

/-- Modelled from the spec: the loss-rate formula exactly as claim C6
words it, truncating long addresses to their LOW (least-significant)
four bytes — `addr[-4:]` — instead of the source's `addr[:4]`.  Used
only to compare the claim against the source function. -/
def lossRateClaimedLow (src tgt : Bytes) (base variation : ℚ) : ℚ :=
  let normalizeLow := fun (addr : Bytes) =>
    if addr.length < 4 then List.replicate (4 - addr.length) 0 ++ addr
    else addr.drop (addr.length - 4)
  let d := IDUtil.calculate_distance (normalizeLow src) (normalizeLow tgt)
  min 1 (max 0 (base + (20 / 100) * ((d : ℚ) / (2 ^ 32 - 1)) + variation))

/-- The node list carried by the response a `handle_message` call
produced (empty when there is no response or an error). -/
def responseNodesOf
    (r : Except PyError (DHTNode × List Message × Option Message × Gen)) :
    List (Bytes × Bytes) :=
  match r with
  | .ok (_, _, some resp, _) => resp.content.getNodes
  | _ => []

/-- Witness fixture: an online node with a 1-byte id, an 8-bit id space
and an empty routing table. -/
def emptyNode : DHTNode :=
  { node_id := [0], address := [0], k_value := 8, id_bits := 8,
    routing_table := RoutingTable.init [0] 8 8, is_online := true }

/-- Witness fixture: a transaction-id supply. -/
def gen0 : Gen :=
  { txs := fun n => n + 1000 }

/-- Witness fixture: a `FIND_NODE` request from node `[1]` delivered to
`emptyNode`. -/
def findNodeMsg : Message :=
  { type := .find_node, source_id := [1], target_id := [0],
    content := .find_node (some [2]), transaction_id := 7,
    send_time := some 3, delivery_time := some 5 }

/-- Witness fixture: a `PONG` from `[1]` answering transaction 7. -/
def pongMsg : Message :=
  { type := .pong, source_id := [1], target_id := [0],
    content := .pong 0, transaction_id := 7,
    send_time := some 3, delivery_time := some 5 }

/-- Witness fixture: `emptyNode` with a pending `ping` towards `[1]`
under transaction 7. -/
def pingPendingNode : DHTNode :=
  { emptyNode with pending_responses :=
      [(7, { kind := "ping", time := 0, retry_count := 0,
             target_id := [1] })] }

/-- Witness fixture: a `STORE_RESPONSE` from `[1]` with a transaction
id unknown to `pingPendingNode`. -/
def storeRespMsg : Message :=
  { type := .store_response, source_id := [1], target_id := [0],
    content := .store_response, transaction_id := 99,
    send_time := some 0, delivery_time := some 5 }

/-- Witness fixture: the queue-operation sequence that schedules time 5,
pops it, then schedules time 1 and pops again. -/
def c7ops : List QOp :=
  [.schedule ⟨.simulation_tick, 5, none⟩, .pop,
   .schedule ⟨.simulation_tick, 1, none⟩, .pop]

/-- Witness fixture: a sample bucket holding one contact with `k = 1`
(full). -/
def sampleBucket : KBucket :=
  ⟨[⟨[1], [1], 0⟩], 1⟩

/-- Witness fixture: a queue-operation sequence that never schedules
into the past and contains two events with equal time (a FIFO tie). -/
def c7goodOps : List QOp :=
  [.schedule ⟨.simulation_tick, 1, none⟩,
   .schedule ⟨.node_join, 1, none⟩,
   .schedule ⟨.simulation_tick, 5, none⟩, .pop, .pop, .pop]

/-- Witness fixture: a `SIMULATION_TICK` event at virtual time 2000. -/
def tickEvent : Event :=
  ⟨.simulation_tick, 2000, none⟩

/-- Witness fixture: the pending `ping` record of `pingPendingNode`. -/
def pingInfo : PendingInfo :=
  { kind := "ping", time := 0, retry_count := 0, target_id := [1] }

/-- Witness fixture: `pingPendingNode` whose last pending-table sweep
ran at virtual time 1950, so a tick at time 2001 falls inside the
source's 100 virtual-ms sweep throttle (dht_node.py line 97). -/
def gatedPingNode : DHTNode :=
  { pingPendingNode with last_check_time := 1950 }

/-- Witness fixture: a `SIMULATION_TICK` event at virtual time 2001 —
reachable, since the simulator emits `SIMULATION_TICK` on every clock
change and consecutive event times are 1-3 units apart (message delays
are `randint(1, 3)`). -/
def lateTickEvent : Event :=
  ⟨.simulation_tick, 2001, none⟩

/-- Witness fixture: a routing table for node `[0]` holding contacts
`[1]` and `[2]` in their correct buckets. -/
def c3Table : RoutingTable :=
  { node_id := [0], k_value := 8, id_bits := 8,
    buckets := [⟨[⟨[1], [10], 0⟩], 8⟩, ⟨[⟨[2], [20], 0⟩], 8⟩] ++
      List.replicate 6 ⟨[], 8⟩ }

/-! ## Helper lemmas -/

theorem bitLengthAux_eq_log2 (fuel : Nat) : ∀ n, 1 ≤ n → n ≤ fuel →
    bitLengthAux fuel n = Nat.log2 n + 1 := by
  induction fuel with
  | zero => omega
  | succ f ih =>
    intro n h1 h2
    match n, h1 with
    | n + 1, _ =>
      rw [show bitLengthAux (f + 1) (n + 1) =
        bitLengthAux f ((n + 1) / 2) + 1 from rfl]
      rw [Nat.log2]
      by_cases h : 2 ≤ n + 1
      · rw [if_pos h]
        rw [ih ((n + 1) / 2) (by omega) (by omega)]
      · rw [if_neg h]
        have hn : n = 0 := by omega
        subst hn
        simp [bitLengthAux]

/-- `bitLength` agrees with Python `int.bit_length`, i.e. with
`⌊log₂ n⌋ + 1` on positive inputs. -/
theorem bitLength_eq_log2 (n : Nat) :
    bitLength n = if n = 0 then 0 else Nat.log2 n + 1 := by
  by_cases h : n = 0
  · subst h
    rfl
  · rw [if_neg h]
    exact bitLengthAux_eq_log2 n n (by omega) le_rfl

theorem KBucket.add_node_eq_of_some {b : KBucket} {node_id : Bytes}
    {rest : List NodeEntry} (address : Bytes) (last_seen : Nat)
    (h : removeFirstById b.nodes node_id = some rest) :
    b.add_node node_id address last_seen =
      (true, { b with nodes := rest ++ [⟨node_id, address, last_seen⟩] }) := by
  unfold KBucket.add_node
  rw [h]

theorem KBucket.add_node_eq_of_none_room {b : KBucket} {node_id : Bytes}
    (address : Bytes) (last_seen : Nat)
    (h : removeFirstById b.nodes node_id = none)
    (hroom : b.nodes.length < b.k_value) :
    b.add_node node_id address last_seen =
      (true, { b with nodes :=
        b.nodes ++ [⟨node_id, address, last_seen⟩] }) := by
  unfold KBucket.add_node
  rw [h]
  simp [hroom]

theorem KBucket.add_node_eq_of_none_full {b : KBucket} {node_id : Bytes}
    (address : Bytes) (last_seen : Nat)
    (h : removeFirstById b.nodes node_id = none)
    (hfull : ¬ b.nodes.length < b.k_value) :
    b.add_node node_id address last_seen = (false, b) := by
  unfold KBucket.add_node
  rw [h]
  simp [hfull]

theorem KBucket.remove_node_eq_of_some {b : KBucket} {node_id : Bytes}
    {rest : List NodeEntry}
    (h : removeFirstById b.nodes node_id = some rest) :
    b.remove_node node_id = (true, { b with nodes := rest }) := by
  unfold KBucket.remove_node
  rw [h]

theorem KBucket.remove_node_eq_of_none {b : KBucket} {node_id : Bytes}
    (h : removeFirstById b.nodes node_id = none) :
    b.remove_node node_id = (false, b) := by
  unfold KBucket.remove_node
  rw [h]

theorem removeFirstById_eq_none {l : List NodeEntry} {nid : Bytes} :
    removeFirstById l nid = none ↔ ∀ n ∈ l, n.id ≠ nid := by
  induction l with
  | nil => simp [removeFirstById]
  | cons x xs ih =>
    by_cases h : x.id = nid
    · simp [removeFirstById, h]
    · simp [removeFirstById, h, Option.map_eq_none', ih]

theorem removeFirstById_sublist {l r : List NodeEntry} {nid : Bytes}
    (h : removeFirstById l nid = some r) : r.Sublist l := by
  induction l generalizing r with
  | nil => simp [removeFirstById] at h
  | cons x xs ih =>
    by_cases hx : x.id = nid
    · simp only [removeFirstById, hx, if_true, Option.some_inj] at h
      exact h ▸ List.sublist_cons_self x xs
    · simp only [removeFirstById, hx, if_false, Option.map_eq_some'] at h
      obtain ⟨r', hr', rfl⟩ := h
      exact (ih hr').cons₂ x

theorem removeFirstById_length {l r : List NodeEntry} {nid : Bytes}
    (h : removeFirstById l nid = some r) : r.length + 1 = l.length := by
  induction l generalizing r with
  | nil => simp [removeFirstById] at h
  | cons x xs ih =>
    by_cases hx : x.id = nid
    · simp only [removeFirstById, hx, if_true, Option.some_inj] at h
      simp [← h]
    · simp only [removeFirstById, hx, if_false, Option.map_eq_some'] at h
      obtain ⟨r', hr', rfl⟩ := h
      simp [← ih hr']

theorem removeFirstById_not_mem {l r : List NodeEntry} {nid : Bytes}
    (hnd : (l.map NodeEntry.id).Nodup)
    (h : removeFirstById l nid = some r) : ∀ x ∈ r, x.id ≠ nid := by
  induction l generalizing r with
  | nil => simp [removeFirstById] at h
  | cons x xs ih =>
    simp only [List.map_cons, List.nodup_cons] at hnd
    by_cases hx : x.id = nid
    · simp only [removeFirstById, hx, if_true, Option.some_inj] at h
      subst h
      intro y hy hyid
      have hmem : y.id ∈ List.map NodeEntry.id xs :=
        List.mem_map_of_mem NodeEntry.id hy
      rw [hyid, ← hx] at hmem
      exact hnd.1 hmem
    · simp only [removeFirstById, hx, if_false, Option.map_eq_some'] at h
      obtain ⟨r', hr', rfl⟩ := h
      intro y hy
      rcases List.mem_cons.mp hy with rfl | hy'
      · exact hx
      · exact ih hnd.2 hr' y hy'

theorem pendingLookup_cons (a : TxId × PendingInfo)
    (p : List (TxId × PendingInfo)) (t : TxId) :
    pendingLookup (a :: p) t =
      if a.1 = t then some a.2 else pendingLookup p t := by
  by_cases h : a.1 = t
  · simp [pendingLookup, List.find?_cons_of_pos, h]
  · simp [pendingLookup, List.find?_cons_of_neg, h]

theorem pendingLookup_append (p q : List (TxId × PendingInfo)) (t : TxId)
    (hp : pendingLookup p t = none) :
    pendingLookup (p ++ q) t = pendingLookup q t := by
  induction p with
  | nil => simp
  | cons a as ih =>
    rw [pendingLookup_cons] at hp
    by_cases h : a.1 = t
    · simp [h] at hp
    · rw [List.cons_append, pendingLookup_cons, if_neg h]
      exact ih (by simpa [h] using hp)

theorem pendingLookup_erase (p : List (TxId × PendingInfo)) (k t : TxId) :
    pendingLookup (pendingErase p k) t =
      if t = k then none else pendingLookup p t := by
  unfold pendingErase
  induction p with
  | nil => by_cases ht : t = k <;> simp [pendingLookup, ht]
  | cons a as ih =>
    rw [List.filter_cons]
    by_cases hak : a.1 = k
    · rw [if_neg (by simp [hak])]
      rw [ih]
      by_cases ht : t = k
      · simp [ht]
      · rw [if_neg ht, pendingLookup_cons,
          if_neg (show ¬ a.1 = t by rw [hak]; exact fun h => ht h.symm),
          if_neg ht]
    · rw [if_pos (by simp [hak])]
      rw [pendingLookup_cons, pendingLookup_cons, ih]
      by_cases ht : t = k
      · rw [if_pos ht, if_pos ht,
          if_neg (show ¬ a.1 = t from fun h => hak (h.trans ht))]
      · rw [if_neg ht, if_neg ht]

theorem pendingLookup_append_some {p : List (TxId × PendingInfo)}
    (q : List (TxId × PendingInfo)) {t : TxId} {x : PendingInfo}
    (hp : pendingLookup p t = some x) :
    pendingLookup (p ++ q) t = some x := by
  induction p with
  | nil => simp [pendingLookup] at hp
  | cons a as ih =>
    rw [List.cons_append, pendingLookup_cons]
    rw [pendingLookup_cons] at hp
    by_cases h : a.1 = t
    · simpa [h] using hp
    · rw [if_neg h] at hp ⊢
      exact ih hp

theorem pendingLookup_none_of_any_false
    {p : List (TxId × PendingInfo)} {k : TxId}
    (hany : ¬ (p.any fun e => e.1 = k) = true) :
    pendingLookup p k = none := by
  induction p with
  | nil => simp [pendingLookup]
  | cons a as ih =>
    simp only [List.any_cons, Bool.or_eq_true, decide_eq_true_eq] at hany
    push_neg at hany
    rw [pendingLookup_cons, if_neg hany.1]
    exact ih (by simpa using hany.2)

theorem lookup_mapSet_self (p : List (TxId × PendingInfo)) (k : TxId)
    (v : PendingInfo) (hany : p.any (fun e => e.1 = k) = true) :
    pendingLookup
      (p.map (fun e => if e.1 = k then (k, v) else e)) k = some v := by
  induction p with
  | nil => simp at hany
  | cons a as ih =>
    by_cases ha : a.1 = k
    · simp [pendingLookup_cons, ha]
    · have hany' : as.any (fun e => e.1 = k) = true := by
        simpa [List.any_cons, ha] using hany
      simpa [pendingLookup_cons, ha] using ih hany'

theorem lookup_mapSet_ne (p : List (TxId × PendingInfo)) (k t : TxId)
    (v : PendingInfo) (ht : t ≠ k) :
    pendingLookup (p.map (fun e => if e.1 = k then (k, v) else e)) t =
      pendingLookup p t := by
  induction p with
  | nil => simp [pendingLookup]
  | cons a as ih =>
    by_cases ha : a.1 = k
    · have : ¬ a.1 = t := fun h => ht (by rw [← h, ha])
      simp only [List.map_cons, if_pos ha]
      rw [pendingLookup_cons, pendingLookup_cons]
      simp only [if_neg this]
      simp only [show ¬ (k = t) from fun h => ht h.symm, if_false, ih]
    · simp only [List.map_cons, if_neg ha]
      rw [pendingLookup_cons, pendingLookup_cons, ih]

theorem pendingLookup_set_self (p : List (TxId × PendingInfo)) (k : TxId)
    (v : PendingInfo) :
    pendingLookup (pendingSet p k v) k = some v := by
  unfold pendingSet
  by_cases hany : (p.any fun e => e.1 = k) = true
  · rw [if_pos hany]
    exact lookup_mapSet_self p k v hany
  · rw [if_neg hany]
    rw [pendingLookup_append p [(k, v)] k
      (pendingLookup_none_of_any_false hany)]
    simp [pendingLookup_cons]

theorem pendingLookup_set_ne (p : List (TxId × PendingInfo)) (k t : TxId)
    (v : PendingInfo) (ht : t ≠ k) :
    pendingLookup (pendingSet p k v) t = pendingLookup p t := by
  unfold pendingSet
  by_cases hany : (p.any fun e => e.1 = k) = true
  · rw [if_pos hany]
    exact lookup_mapSet_ne p k t v ht
  · rw [if_neg hany]
    cases h : pendingLookup p t with
    | none =>
      rw [pendingLookup_append p [(k, v)] t h, pendingLookup_cons,
        if_neg (show ¬ k = t from fun hh => ht hh.symm)]
      simp [pendingLookup]
    | some x => exact pendingLookup_append_some [(k, v)] h

theorem pendingLookup_of_mem_nodup {p : List (TxId × PendingInfo)}
    {t : TxId} {info : PendingInfo}
    (hnd : (p.map Prod.fst).Nodup) (hmem : (t, info) ∈ p) :
    pendingLookup p t = some info := by
  induction p with
  | nil => simp at hmem
  | cons a as ih =>
    simp only [List.map_cons, List.nodup_cons] at hnd
    rcases List.mem_cons.mp hmem with rfl | hmem'
    · simp [pendingLookup_cons]
    · have hat : ¬ a.1 = t := by
        intro h
        exact hnd.1 (h ▸ List.mem_map_of_mem Prod.fst hmem')
      rw [pendingLookup_cons, if_neg hat]
      exact ih hnd.2 hmem'

/-! ## Claim theorems -/

/-- **C1.** The claim asserts that every source of randomness observed
by the core — including ID generation and transaction ids — is drawn
from the single simulator RNG seeded from the configuration, so that
equally-seeded runs produce bit-identical traces.  In the source,
`IDUtil.generate_random_id` reads `os.urandom` and
`Message.__init__` reads `uuid.uuid4()`: both consume operating-system
entropy, not the seeded `random.Random` stream.  Consequently, for any
fixed seed there exist two runs (two OS entropy streams) whose
generated-ID traces and transaction-id traces differ: the traces are
not a function of the seed and scenario. -/
theorem c1_id_generation_not_seeded :
    ∀ seed : Nat, ∃ e1 e2 : Nat → Nat → Nat,
      idTrace seed e1 1 ≠ idTrace seed e2 1 ∧
      txTrace seed e1 1 ≠ txTrace seed e2 1 := by
  intro seed
  refine ⟨fun _ _ => 0, fun _ _ => 1, ?_, ?_⟩ <;>
    simp [idTrace, txTrace, IDUtil.generate_random_id, uuid4, osUrandom,
      List.range_succ]

/-- **C5.** Every `KBucket` operation preserves the invariants that the
bucket holds no two entries with the same node id and that its length
never exceeds `k`; and `add_node` on a full bucket with an absent id
returns `False` and leaves the bucket completely unchanged. -/
theorem c5_kbucket_invariants (b : KBucket) (node_id address : Bytes)
    (last_seen : Nat)
    (hnd : (b.nodes.map NodeEntry.id).Nodup)
    (hlen : b.nodes.length ≤ b.k_value) :
    (((b.add_node node_id address last_seen).2.nodes.map
        NodeEntry.id).Nodup ∧
      (b.add_node node_id address last_seen).2.nodes.length ≤ b.k_value) ∧
    (((b.remove_node node_id).2.nodes.map NodeEntry.id).Nodup ∧
      (b.remove_node node_id).2.nodes.length ≤ b.k_value) ∧
    (b.contains node_id = false → b.k_value ≤ b.nodes.length →
      b.add_node node_id address last_seen = (false, b)) := by
  refine ⟨?_, ?_, ?_⟩
  · cases hrem : removeFirstById b.nodes node_id with
    | some rest =>
      rw [KBucket.add_node_eq_of_some address last_seen hrem]
      have hsub := removeFirstById_sublist hrem
      have hsubn : (rest.map NodeEntry.id).Nodup :=
        hnd.sublist (hsub.map NodeEntry.id)
      have hnotmem := removeFirstById_not_mem hnd hrem
      constructor
      · simp only [List.map_append, List.map_cons, List.map_nil]
        rw [List.nodup_append]
        refine ⟨hsubn, List.nodup_singleton _, ?_⟩
        intro x hx
        simp only [List.mem_singleton]
        obtain ⟨y, hy, rfl⟩ := List.mem_map.mp hx
        exact fun h => hnotmem y hy h
      · have := removeFirstById_length hrem
        simp only [List.length_append, List.length_cons, List.length_nil]
        omega
    | none =>
      by_cases hroom : b.nodes.length < b.k_value
      · rw [KBucket.add_node_eq_of_none_room address last_seen hrem hroom]
        constructor
        · simp only [List.map_append, List.map_cons, List.map_nil]
          rw [List.nodup_append]
          refine ⟨hnd, List.nodup_singleton _, ?_⟩
          intro x hx
          simp only [List.mem_singleton]
          obtain ⟨y, hy, rfl⟩ := List.mem_map.mp hx
          exact fun h => (removeFirstById_eq_none.mp hrem y hy) h
        · simp only [List.length_append, List.length_cons, List.length_nil]
          omega
      · rw [KBucket.add_node_eq_of_none_full address last_seen hrem hroom]
        exact ⟨hnd, hlen⟩
  · cases hrem : removeFirstById b.nodes node_id with
    | some rest =>
      rw [KBucket.remove_node_eq_of_some hrem]
      have hsub := removeFirstById_sublist hrem
      have hlenr := removeFirstById_length hrem
      exact ⟨hnd.sublist (hsub.map NodeEntry.id), by simp; omega⟩
    | none =>
      rw [KBucket.remove_node_eq_of_none hrem]
      exact ⟨hnd, hlen⟩
  · intro habs hfull
    have habs' : ∀ x ∈ b.nodes, ¬ x.id = node_id := by
      simpa [KBucket.contains, List.any_eq_false] using habs
    exact KBucket.add_node_eq_of_none_full address last_seen
      (removeFirstById_eq_none.mpr habs') (by omega)

/-- Witness for C5 at a concrete full bucket. -/
theorem c5_kbucket_invariants_witness :
    (((sampleBucket.add_node [2] [2] 7).2.nodes.map NodeEntry.id).Nodup ∧
      (sampleBucket.add_node [2] [2] 7).2.nodes.length ≤
        sampleBucket.k_value) ∧
    (((sampleBucket.remove_node [2]).2.nodes.map NodeEntry.id).Nodup ∧
      (sampleBucket.remove_node [2]).2.nodes.length ≤
        sampleBucket.k_value) ∧
    (sampleBucket.contains [2] = false →
      sampleBucket.k_value ≤ sampleBucket.nodes.length →
      sampleBucket.add_node [2] [2] 7 = (false, sampleBucket)) :=
  c5_kbucket_invariants sampleBucket [2] [2] 7 (by decide) (by decide)

/-- An empty table answers every closest-nodes query with `[]`. -/
theorem find_closest_nodes_of_empty (rt : RoutingTable) (target : Bytes)
    (count : Option Nat) (h : rt.all_nodes = []) :
    rt.find_closest_nodes target count = [] := by
  simp [RoutingTable.find_closest_nodes, h, List.insertionSort]

/-- **C9 counterexample.**  The claim says `publish(file_id)` on an
online node with an empty routing table leaves the whole node state —
including `owned_files` — unchanged.  In the source, `publish_file`
adds the file to `owned_files` *before* consulting the routing table
(dht_node.py line 70), so the state does change. -/
theorem c9_counterexample :
    emptyNode.is_online = true ∧
    emptyNode.routing_table.all_nodes = [] ∧
    (emptyNode.publish_file gen0 [7] 0).1 ≠ emptyNode := by
  refine ⟨rfl, by decide, ?_⟩
  decide

/-- **C9 (amended).**  For every online node whose routing table is
empty, `find_closest` returns `[]`; `retrieve(file_id)` sends no
message and leaves the node unchanged; `publish(file_id)` sends no
message and leaves the node unchanged *except* that `file_id` is added
to `owned_files` (a no-op when already owned). -/
theorem c9_empty_table_publish_retrieve (s : DHTNode) (g : Gen)
    (fid : Bytes) (now : Nat)
    (hon : s.is_online = true)
    (hempty : s.routing_table.all_nodes = []) :
    s.routing_table.find_closest_nodes fid = [] ∧
    s.retrieve_file g fid now = (s, [], g) ∧
    s.publish_file g fid now =
      ({ s with owned_files :=
          (if fid ∈ s.owned_files then s.owned_files
           else s.owned_files ++ [fid]) }, [], g) := by
  have hfc : ∀ t : Bytes,
      s.routing_table.find_closest_nodes t = [] := fun t =>
    find_closest_nodes_of_empty s.routing_table t none hempty
  refine ⟨hfc fid, ?_, ?_⟩
  · unfold DHTNode.retrieve_file DHTNode.find_value_op
    rw [if_neg (show ¬¬s.is_online = true from fun h => h hon)]
    by_cases hof : fid ∈ s.owned_files
    · simp [hof]
    · simp [hof, hfc]
  · unfold DHTNode.publish_file DHTNode.find_closest_nodes_op
    rw [if_neg (show ¬¬s.is_online = true from fun h => h hon)]
    simp [hfc fid]

/-- Witness for C9 (amended) at the concrete empty node. -/
theorem c9_empty_table_publish_retrieve_witness :
    (emptyNode.is_online = true ∧
      emptyNode.routing_table.all_nodes = []) ∧
    (emptyNode.routing_table.find_closest_nodes [7] = [] ∧
      emptyNode.retrieve_file gen0 [7] 0 = (emptyNode, [], gen0) ∧
      emptyNode.publish_file gen0 [7] 0 =
        ({ emptyNode with owned_files :=
            (if [7] ∈ emptyNode.owned_files then emptyNode.owned_files
             else emptyNode.owned_files ++ [[7]]) }, [], gen0)) :=
  ⟨⟨rfl, by decide⟩,
    c9_empty_table_publish_retrieve emptyNode gen0 [7] 0 rfl (by decide)⟩

/-- **C4 counterexample.**  The claim says the `FIND_NODE` response
never contains the sender.  But `handle_message` first refreshes the
routing table with the sender (dht_node.py lines 126-130) and
`_handle_find_node` applies no exclusion, so a node with a previously
empty table answers a `FIND_NODE` with a list containing exactly the
sender. -/
theorem c4_counterexample :
    emptyNode.routing_table.all_nodes = [] ∧
    findNodeMsg.source_id ∈
      (responseNodesOf (emptyNode.handle_message gen0 findNodeMsg)).map
        (fun n => n.1) := by
  exact ⟨by decide, by decide⟩

/-- **C4 (amended).**  For every online node receiving a well-formed
`FIND_NODE` request, the node responds with the closest contacts —
at most K of them — taken from its routing table *as refreshed with
the sender*; no sender exclusion is performed (the list may contain
the sender, as the counterexample shows). -/
theorem c4_find_node_response (s : DHTNode) (g : Gen) (m : Message)
    (t : Bytes)
    (hon : s.is_online = true)
    (htype : m.type = MessageType.find_node)
    (htarget : m.content.getTarget = some t) :
    s.handle_message g m =
      .ok ({ s with routing_table :=
              ((s.routing_table.update m.source_id m.source_id
                m.deliveryD).2) }, [],
           some { type := .find_node_response, source_id := m.target_id,
                  target_id := m.source_id,
                  content := .find_node_response
                    ((((s.routing_table.update m.source_id m.source_id
                        m.deliveryD).2).find_closest_nodes t).map
                      (fun n => (n.id, n.address))),
                  transaction_id := m.transaction_id,
                  send_time := m.delivery_time }, g) ∧
    ((((s.routing_table.update m.source_id m.source_id
        m.deliveryD).2).find_closest_nodes t).map
      (fun n => (n.id, n.address))).length ≤ s.routing_table.k_value := by
  constructor
  · unfold DHTNode.handle_message
    rw [if_neg (show ¬¬s.is_online = true from fun h => h hon)]
    simp only [htype]
    unfold DHTNode.handle_find_node
    simp only [htarget]
    simp [Message.create_response]
  · rw [List.length_map]
    unfold RoutingTable.find_closest_nodes
    rw [List.length_map]
    have hk : ((s.routing_table.update m.source_id m.source_id
        m.deliveryD).2).k_value = s.routing_table.k_value := by
      unfold RoutingTable.update
      by_cases h1 : m.source_id = s.routing_table.node_id
      · simp [h1]
      · simp only [h1, if_false]
        by_cases h2 : IDUtil.get_bucket_index s.routing_table.node_id
            m.source_id < 0
        · simp [h2]
        · simp [h2]
    calc (List.take (Option.getD none ((s.routing_table.update m.source_id
            m.source_id m.deliveryD).2).k_value) _).length
        ≤ Option.getD none ((s.routing_table.update m.source_id
            m.source_id m.deliveryD).2).k_value := by
          rw [List.length_take]
          exact min_le_left _ _
      _ = s.routing_table.k_value := by rw [Option.getD, hk]

/-- Witness for C4 (amended) at the concrete empty node. -/
theorem c4_find_node_response_witness :
    (emptyNode.is_online = true ∧
      findNodeMsg.type = MessageType.find_node ∧
      findNodeMsg.content.getTarget = some [2]) ∧
    (emptyNode.handle_message gen0 findNodeMsg =
      .ok ({ emptyNode with routing_table :=
              ((emptyNode.routing_table.update findNodeMsg.source_id
                findNodeMsg.source_id findNodeMsg.deliveryD).2) }, [],
           some { type := .find_node_response,
                  source_id := findNodeMsg.target_id,
                  target_id := findNodeMsg.source_id,
                  content := .find_node_response
                    ((((emptyNode.routing_table.update
                        findNodeMsg.source_id findNodeMsg.source_id
                        findNodeMsg.deliveryD).2).find_closest_nodes
                        [2]).map (fun n => (n.id, n.address))),
                  transaction_id := findNodeMsg.transaction_id,
                  send_time := findNodeMsg.delivery_time }, gen0) ∧
      ((((emptyNode.routing_table.update findNodeMsg.source_id
          findNodeMsg.source_id findNodeMsg.deliveryD).2).find_closest_nodes
          [2]).map (fun n => (n.id, n.address))).length ≤
        emptyNode.routing_table.k_value) :=
  ⟨⟨rfl, rfl, rfl⟩,
    c4_find_node_response emptyNode gen0 findNodeMsg [2] rfl rfl rfl⟩

/-- **C2.**  The claim says a matching `PONG` updates `last_seen` on
the routing-table entry of the source and the handler completes
without raising.  In the source, `_handle_pong` pops the pending
record and then calls `self.routing_table.update_last_seen(...)`
(dht_node.py line 192), but `class RoutingTable` defines no method of
that name, so the handler raises `AttributeError` instead of
completing — contradicting both the claim and the spec's
error-propagation policy (handlers are boundaries).  The spec is
clearly the intent (the routing refresh exists as
`RoutingTable.update`); the code is a slip. -/
theorem c2_pong_attribute_error (s : DHTNode) (g : Gen) (m : Message)
    (info : PendingInfo)
    (hon : s.is_online = true)
    (htype : m.type = MessageType.pong)
    (hpend : pendingLookup s.pending_responses m.transaction_id =
      some info)
    (hkind : info.kind = "ping") :
    ("update_last_seen" ∉ RoutingTable.definedMethods) ∧
    s.handle_message g m =
      .error (.attributeError "RoutingTable" "update_last_seen") := by
  refine ⟨by decide, ?_⟩
  unfold DHTNode.handle_message
  rw [if_neg (show ¬¬s.is_online = true from fun h => h hon)]
  simp only [htype]
  unfold DHTNode.handle_pong
  simp only [show ({ s with routing_table :=
      ((s.routing_table.update m.source_id m.source_id
        m.deliveryD).2) } : DHTNode).pending_responses =
      s.pending_responses from rfl, hpend]
  rw [if_pos hkind]
  rfl

/-- Witness for C2 at a concrete node with a pending `ping`. -/
theorem c2_pong_attribute_error_witness :
    (pingPendingNode.is_online = true ∧
      pongMsg.type = MessageType.pong ∧
      pendingLookup pingPendingNode.pending_responses
        pongMsg.transaction_id =
        some { kind := "ping", time := 0, retry_count := 0,
               target_id := [1] }) ∧
    (("update_last_seen" ∉ RoutingTable.definedMethods) ∧
      pingPendingNode.handle_message gen0 pongMsg =
        .error (.attributeError "RoutingTable" "update_last_seen")) :=
  ⟨⟨rfl, rfl, by decide⟩,
    c2_pong_attribute_error pingPendingNode gen0 pongMsg
      { kind := "ping", time := 0, retry_count := 0, target_id := [1] }
      rfl rfl (by decide) rfl⟩

theorem pendingLookup_eq_none_iff_any (p : List (TxId × PendingInfo))
    (t : TxId) :
    pendingLookup p t = none ↔ (p.any fun e => e.1 = t) = false := by
  induction p with
  | nil => simp [pendingLookup]
  | cons a as ih =>
    rw [pendingLookup_cons, List.any_cons]
    by_cases h : a.1 = t
    · simp [h]
    · simp [h, ih]

theorem foldl_routing_pending (l : List (Bytes × Bytes)) (dt : Nat)
    (s0 : DHTNode) :
    (l.foldl (fun s n =>
      { s with routing_table := (s.routing_table.update n.1 n.2 dt).2 })
      s0).pending_responses = s0.pending_responses := by
  induction l generalizing s0 with
  | nil => rfl
  | cons x xs ih =>
    rw [List.foldl_cons]
    exact ih _

theorem foldl_providers_pending (l : List (Bytes × Option Nat)) (dt : Nat)
    (fid : Bytes) (s0 : DHTNode) :
    (l.foldl (fun s pr =>
      let last_seen := pr.2.getD dt
      let provs := (providersLookup s.file_providers fid).getD []
      { s with file_providers :=
          (providersSet s.file_providers fid
            (mergeProvider provs pr.1 last_seen)) }) s0).pending_responses =
      s0.pending_responses := by
  induction l generalizing s0 with
  | nil => rfl
  | cons x xs ih =>
    rw [List.foldl_cons]
    exact ih _

theorem foldl_send_ping_lookup (l : List (Bytes × Bytes)) (dt : Nat)
    (T : TxId) :
    ∀ acc : DHTNode × List Message × Gen,
    pendingLookup acc.1.pending_responses T = none →
    (∀ n, acc.2.2.txs n ≠ T) →
    pendingLookup ((l.foldl (fun acc n =>
      let r := DHTNode.send_ping acc.1 acc.2.2 n.1 dt
      (r.1, acc.2.1 ++ r.2.1, r.2.2)) acc).1).pending_responses T =
      none := by
  induction l with
  | nil =>
    intro acc h _
    exact h
  | cons x xs ih =>
    intro acc h hf
    rw [List.foldl_cons]
    refine ih _ ?_ (fun n => hf n)
    show pendingLookup
      (pendingSet acc.1.pending_responses (acc.2.2.txs acc.2.2.i) _) T =
      none
    rw [pendingLookup_set_ne _ _ _ _
      (fun he => (hf acc.2.2.i) he.symm)]
    exact h

theorem foldl_send_store_lookup (l : List (Bytes × Bytes)) (dt : Nat)
    (fid addr : Bytes) (T : TxId) :
    ∀ acc : DHTNode × List Message × Gen,
    pendingLookup acc.1.pending_responses T = none →
    (∀ n, acc.2.2.txs n ≠ T) →
    pendingLookup ((l.foldl (fun acc n =>
      let r := DHTNode.send_store acc.1 acc.2.2 n.1 fid addr dt
      (r.1, acc.2.1 ++ r.2.1, r.2.2)) acc).1).pending_responses T =
      none := by
  induction l with
  | nil =>
    intro acc h _
    exact h
  | cons x xs ih =>
    intro acc h hf
    rw [List.foldl_cons]
    refine ih _ ?_ (fun n => hf n)
    show pendingLookup
      (pendingSet acc.1.pending_responses (acc.2.2.txs acc.2.2.i) _) T =
      none
    rw [pendingLookup_set_ne _ _ _ _
      (fun he => (hf acc.2.2.i) he.symm)]
    exact h

theorem foldl_send_find_value_lookup (l : List (Bytes × Bytes)) (dt : Nat)
    (fid : Bytes) (T : TxId) :
    ∀ acc : DHTNode × List Message × Gen,
    pendingLookup acc.1.pending_responses T = none →
    (∀ n, acc.2.2.txs n ≠ T) →
    pendingLookup ((l.foldl (fun acc n =>
      let s := { acc.1 with routing_table :=
        (acc.1.routing_table.update n.1 n.2 dt).2 }
      let r := DHTNode.send_find_value s acc.2.2 n.1 fid dt
      (r.1, acc.2.1 ++ r.2.1, r.2.2)) acc).1).pending_responses T =
      none := by
  induction l with
  | nil =>
    intro acc h _
    exact h
  | cons x xs ih =>
    intro acc h hf
    rw [List.foldl_cons]
    refine ih _ ?_ (fun n => hf n)
    show pendingLookup
      (pendingSet acc.1.pending_responses (acc.2.2.txs acc.2.2.i) _) T =
      none
    rw [pendingLookup_set_ne _ _ _ _
      (fun he => (hf acc.2.2.i) he.symm)]
    exact h

theorem handle_pong_unknown (s : DHTNode) (m : Message)
    (h : pendingLookup s.pending_responses m.transaction_id = none) :
    DHTNode.handle_pong s m = .ok (s, none) := by
  unfold DHTNode.handle_pong
  simp only [h]

theorem handle_fnr_unknown (s : DHTNode) (g : Gen) (m : Message)
    (h : pendingLookup s.pending_responses m.transaction_id = none) :
    DHTNode.handle_find_node_response s g m = (s, [], g) := by
  unfold DHTNode.handle_find_node_response
  simp only [h]

theorem handle_fvr_unknown (s : DHTNode) (g : Gen) (m : Message)
    (h : pendingLookup s.pending_responses m.transaction_id = none) :
    DHTNode.handle_find_value_response s g m = (s, [], g) := by
  unfold DHTNode.handle_find_value_response
  simp only [h]

theorem handle_sr_unknown (s : DHTNode) (m : Message)
    (h : pendingLookup s.pending_responses m.transaction_id = none) :
    DHTNode.handle_store_response s m = (s, none) := by
  unfold DHTNode.handle_store_response
  rw [if_neg]
  intro hany
  rw [(pendingLookup_eq_none_iff_any _ _).mp h] at hany
  exact Bool.false_ne_true hany

theorem handle_pong_consumed (s : DHTNode) (m : Message)
    (r : DHTNode × Option Message)
    (h : DHTNode.handle_pong s m = .ok r) :
    pendingLookup r.1.pending_responses m.transaction_id = none := by
  unfold DHTNode.handle_pong at h
  cases hl : pendingLookup s.pending_responses m.transaction_id with
  | none =>
    rw [hl] at h
    simp only [Except.ok.injEq] at h
    rw [← h]
    exact hl
  | some info =>
    simp only [hl] at h
    by_cases hk : info.kind = "ping"
    · rw [if_pos hk] at h
      exact absurd h (by simp)
    · rw [if_neg hk] at h
      simp only [Except.ok.injEq] at h
      rw [← h]
      show pendingLookup
        (pendingErase s.pending_responses m.transaction_id)
        m.transaction_id = none
      rw [pendingLookup_erase]
      simp

theorem handle_fnr_consumed (s : DHTNode) (g : Gen) (m : Message)
    (hfresh : ∀ n, g.txs n ≠ m.transaction_id) :
    pendingLookup
      (DHTNode.handle_find_node_response s g m).1.pending_responses
      m.transaction_id = none := by
  unfold DHTNode.handle_find_node_response
  cases hl : pendingLookup s.pending_responses m.transaction_id with
  | none => exact hl
  | some info =>
    have h0 : pendingLookup
        (pendingErase s.pending_responses m.transaction_id)
        m.transaction_id = none := by
      rw [pendingLookup_erase]
      simp
    simp only []
    by_cases hj : info.kind = "join_network"
    · rw [if_pos hj]
      apply foldl_send_ping_lookup _ _ _ _ _ hfresh
      rw [foldl_routing_pending]
      exact h0
    · rw [if_neg hj]
      by_cases hs : info.kind = "store_file"
      · rw [if_pos hs]
        cases hf : info.file_id with
        | none =>
          rw [foldl_routing_pending]
          exact h0
        | some fid =>
          apply foldl_send_store_lookup _ _ _ _ _ _ _ hfresh
          rw [foldl_routing_pending]
          exact h0
      · rw [if_neg hs]
        rw [foldl_routing_pending]
        exact h0

theorem handle_fvr_consumed (s : DHTNode) (g : Gen) (m : Message)
    (hfresh : ∀ n, g.txs n ≠ m.transaction_id) :
    pendingLookup
      (DHTNode.handle_find_value_response s g m).1.pending_responses
      m.transaction_id = none := by
  unfold DHTNode.handle_find_value_response
  cases hl : pendingLookup s.pending_responses m.transaction_id with
  | none => exact hl
  | some info =>
    have h0 : pendingLookup
        (pendingErase s.pending_responses m.transaction_id)
        m.transaction_id = none := by
      rw [pendingLookup_erase]
      simp
    simp only []
    by_cases hk : info.kind ≠ "find_value"
    · rw [if_pos hk]
      exact h0
    · rw [if_neg hk]
      cases hf : info.file_id with
      | none => exact h0
      | some fid =>
        by_cases hfound : m.content.getFound = true
        · simp only [hfound, if_true]
          rw [foldl_providers_pending]
          exact h0
        · simp only [Bool.not_eq_true] at hfound
          simp only [hfound, Bool.false_eq_true, if_false]
          exact foldl_send_find_value_lookup _ _ _ _ _ h0 hfresh

theorem handle_sr_consumed (s : DHTNode) (m : Message) :
    pendingLookup
      (DHTNode.handle_store_response s m).1.pending_responses
      m.transaction_id = none := by
  unfold DHTNode.handle_store_response
  by_cases h : (s.pending_responses.any
      fun e => e.1 = m.transaction_id) = true
  · rw [if_pos h]
    show pendingLookup
      (pendingErase s.pending_responses m.transaction_id)
      m.transaction_id = none
    rw [pendingLookup_erase]
    simp
  · rw [if_neg h]
    exact (pendingLookup_eq_none_iff_any _ _).mpr
      (Bool.not_eq_true _ ▸ Bool.of_not_eq_true h)

/-- **C10.**  For every response message (`PONG`,
`FIND_NODE_RESPONSE`, `FIND_VALUE_RESPONSE`, `STORE_RESPONSE`)
delivered to an online node whose transaction id is not pending, the
handler returns no response and leaves the pending table,
`file_providers` and `owned_files` unchanged — only the generic
routing-table refresh of the sender occurs.  Moreover each handler
removes the pending record before acting on it, so after any response
handling that completes normally (with fresh transaction ids for
messages it sends), the consumed transaction id is no longer
pending — a pending record is consumed by at most one response. -/
theorem c10_response_unknown_txid_frame (s : DHTNode) (g : Gen)
    (m : Message)
    (hon : s.is_online = true)
    (hresp : m.type = MessageType.pong ∨
      m.type = MessageType.find_node_response ∨
      m.type = MessageType.find_value_response ∨
      m.type = MessageType.store_response) :
    (pendingLookup s.pending_responses m.transaction_id = none →
      s.handle_message g m =
        .ok ({ s with routing_table :=
          ((s.routing_table.update m.source_id m.source_id
            m.deliveryD).2) }, [], none, g)) ∧
    (∀ r : DHTNode × List Message × Option Message × Gen,
      (∀ n : Nat, g.txs n ≠ m.transaction_id) →
      s.handle_message g m = Except.ok r →
      pendingLookup r.1.pending_responses m.transaction_id = none) := by
  constructor
  · intro hnone
    unfold DHTNode.handle_message
    rw [if_neg (show ¬¬s.is_online = true from fun h => h hon)]
    rcases hresp with h | h | h | h <;> simp only [h]
    · rw [handle_pong_unknown
        { s with routing_table :=
          ((s.routing_table.update m.source_id m.source_id
            m.deliveryD).2) } m hnone]
      rfl
    · rw [handle_fnr_unknown
        { s with routing_table :=
          ((s.routing_table.update m.source_id m.source_id
            m.deliveryD).2) } g m hnone]
    · rw [handle_fvr_unknown
        { s with routing_table :=
          ((s.routing_table.update m.source_id m.source_id
            m.deliveryD).2) } g m hnone]
    · rw [handle_sr_unknown
        { s with routing_table :=
          ((s.routing_table.update m.source_id m.source_id
            m.deliveryD).2) } m hnone]
  · intro r hfresh hok
    unfold DHTNode.handle_message at hok
    rw [if_neg (show ¬¬s.is_online = true from fun h => h hon)] at hok
    rcases hresp with h | h | h | h <;> simp only [h] at hok
    · cases hp : DHTNode.handle_pong
        { s with routing_table :=
          ((s.routing_table.update m.source_id m.source_id
            m.deliveryD).2) } m with
      | error e =>
        rw [hp] at hok
        exact absurd hok (by simp [Except.map])
      | ok rp =>
        rw [hp] at hok
        simp only [Except.map, Except.ok.injEq] at hok
        have := handle_pong_consumed _ _ _ hp
        rw [← hok]
        exact this
    · simp only [Except.ok.injEq] at hok
      rw [← hok]
      exact handle_fnr_consumed _ _ _ hfresh
    · simp only [Except.ok.injEq] at hok
      rw [← hok]
      exact handle_fvr_consumed _ _ _ hfresh
    · simp only [Except.ok.injEq] at hok
      rw [← hok]
      exact handle_sr_consumed _ _

/-- Witness for C10: a `STORE_RESPONSE` with an unknown transaction id
delivered to the node that has one unrelated pending `ping`. -/
theorem c10_response_unknown_txid_frame_witness :
    (pingPendingNode.is_online = true ∧
      storeRespMsg.type = MessageType.store_response) ∧
    ((pendingLookup pingPendingNode.pending_responses
        storeRespMsg.transaction_id = none →
      pingPendingNode.handle_message gen0 storeRespMsg =
        .ok ({ pingPendingNode with routing_table :=
          ((pingPendingNode.routing_table.update storeRespMsg.source_id
            storeRespMsg.source_id storeRespMsg.deliveryD).2) },
          [], none, gen0)) ∧
    (∀ r : DHTNode × List Message × Option Message × Gen,
      (∀ n : Nat, gen0.txs n ≠ storeRespMsg.transaction_id) →
      pingPendingNode.handle_message gen0 storeRespMsg = Except.ok r →
      pendingLookup r.1.pending_responses storeRespMsg.transaction_id =
        none)) :=
  ⟨⟨rfl, rfl⟩,
    c10_response_unknown_txid_frame pingPendingNode gen0 storeRespMsg
      rfl (Or.inr (Or.inr (Or.inr rfl)))⟩

theorem fromBytes_foldl_acc (l : Bytes) (a : Nat) :
    l.foldl (fun acc x => acc * 256 + x) a =
      a * 256 ^ l.length + fromBytes l := by
  induction l generalizing a with
  | nil => simp [fromBytes]
  | cons x xs ih =>
    rw [show fromBytes (x :: xs) =
      List.foldl (fun acc y => acc * 256 + y) (0 * 256 + x) xs from rfl]
    rw [List.foldl_cons, ih (a * 256 + x), ih (0 * 256 + x),
      List.length_cons, pow_succ]
    ring

theorem fromBytes_cons (x : Nat) (xs : Bytes) :
    fromBytes (x :: xs) = x * 256 ^ xs.length + fromBytes xs := by
  rw [show fromBytes (x :: xs) =
    List.foldl (fun acc y => acc * 256 + y) (0 * 256 + x) xs from rfl]
  rw [fromBytes_foldl_acc]
  ring

theorem fromBytes_append (a b : Bytes) :
    fromBytes (a ++ b) = fromBytes a * 256 ^ b.length + fromBytes b := by
  unfold fromBytes
  rw [List.foldl_append]
  exact fromBytes_foldl_acc b _

theorem fromBytes_lt (l : Bytes) (h : ∀ x ∈ l, x < 256) :
    fromBytes l < 256 ^ l.length := by
  induction l with
  | nil => simp [fromBytes]
  | cons x xs ih =>
    have hx : x < 256 := h x (List.mem_cons_self x xs)
    have hxs := ih (fun y hy => h y (List.mem_cons_of_mem x hy))
    rw [fromBytes_cons]
    calc x * 256 ^ xs.length + fromBytes xs
        < x * 256 ^ xs.length + 256 ^ xs.length := by omega
      _ = (x + 1) * 256 ^ xs.length := by ring
      _ ≤ 256 * 256 ^ xs.length := Nat.mul_le_mul_right _ (by omega)
      _ = 256 ^ (x :: xs).length := by
          rw [List.length_cons, pow_succ, Nat.mul_comm]

theorem fromBytes_take_four (addr : Bytes) (h4 : 4 ≤ addr.length)
    (hb : ∀ x ∈ addr, x < 256) :
    fromBytes (addr.take 4) = fromBytes addr / 256 ^ (addr.length - 4) := by
  have hlt : fromBytes (addr.drop 4) < 256 ^ (addr.length - 4) := by
    have := fromBytes_lt (addr.drop 4)
      (fun y hy => hb y (List.mem_of_mem_drop hy))
    rwa [List.length_drop] at this
  have hq : 0 < 256 ^ (addr.length - 4) := Nat.pos_pow_of_pos _ (by omega)
  have key : fromBytes addr =
      256 ^ (addr.length - 4) * fromBytes (addr.take 4) +
        fromBytes (addr.drop 4) := by
    conv_lhs => rw [← List.take_append_drop 4 addr]
    rw [fromBytes_append, List.length_drop, Nat.mul_comm]
  rw [key, Nat.mul_add_div hq, Nat.div_eq_of_lt hlt, Nat.add_zero]

/-- **C6 counterexample.**  The claim says long addresses are truncated
to their *low* (least-significant) four bytes.  The source truncates
with `addr[:4]` — the first, most-significant four bytes — so on the
5-byte source address `01 00 00 00 00` the source computes a non-zero
distance to `00 00 00 00` where the claimed low-byte truncation gives
distance 0. -/
theorem c6_counterexample :
    DHTSimulator.calculate_packet_loss_rate [1, 0, 0, 0, 0] [0, 0, 0, 0]
      0 0 ≠
    lossRateClaimedLow [1, 0, 0, 0, 0] [0, 0, 0, 0] 0 0 := by
  have hL : DHTSimulator.calculate_packet_loss_rate
      [1, 0, 0, 0, 0] [0, 0, 0, 0] 0 0 = 16777216 / 21474836475 := by
    unfold DHTSimulator.calculate_packet_loss_rate
      DHTSimulator.normalize_address IDUtil.calculate_distance fromBytes
    norm_num [show Nat.xor 1 0 = 1 from rfl, show Nat.xor 0 0 = 0 from rfl]
  have hR : lossRateClaimedLow [1, 0, 0, 0, 0] [0, 0, 0, 0] 0 0 = 0 := by
    unfold lossRateClaimedLow IDUtil.calculate_distance fromBytes
    norm_num [show Nat.xor 0 0 = 0 from rfl]
  rw [hL, hR]
  norm_num

/-- **C6 (amended).**  `calculate_packet_loss_rate` left-pads addresses
shorter than 4 bytes with zero bytes and truncates longer addresses to
their *first* (big-endian most-significant) four bytes — equivalently,
the big-endian value is divided by `256^(len-4)` — and the returned
probability equals `base + 0.20·(D/(2^32−1)) + variation` clamped to
`[0, 1]`, where `D` is the XOR distance of the two normalized
addresses. -/
theorem c6_loss_rate_formula (src tgt : Bytes) (base variation : ℚ)
    (hsrc : ∀ x ∈ src, x < 256) :
    (src.length < 4 →
      DHTSimulator.normalize_address src =
        List.replicate (4 - src.length) 0 ++ src) ∧
    (4 ≤ src.length →
      DHTSimulator.normalize_address src = src.take 4 ∧
      fromBytes (DHTSimulator.normalize_address src) =
        fromBytes src / 256 ^ (src.length - 4)) ∧
    DHTSimulator.calculate_packet_loss_rate src tgt base variation =
      min 1 (max 0 (base + (20 / 100) *
        ((IDUtil.calculate_distance (DHTSimulator.normalize_address src)
          (DHTSimulator.normalize_address tgt) : ℚ) / (2 ^ 32 - 1)) +
        variation)) := by
  refine ⟨?_, ?_, ?_⟩
  · intro h
    unfold DHTSimulator.normalize_address
    rw [if_pos h]
  · intro h
    have hne : ¬ src.length < 4 := by omega
    constructor
    · unfold DHTSimulator.normalize_address
      rw [if_neg hne]
    · unfold DHTSimulator.normalize_address
      rw [if_neg hne]
      exact fromBytes_take_four src h hsrc
  · simp only [DHTSimulator.calculate_packet_loss_rate]
    rw [show ∀ d : ℚ, base + d / (2 ^ 32 - 1) * (2 / 10) + variation =
      base + (20 / 100) * (d / (2 ^ 32 - 1)) + variation
      from fun d => by ring]

/-- Witness for C6 (amended) at a 5-byte source address. -/
theorem c6_loss_rate_formula_witness :
    (∀ x ∈ ([1, 0, 0, 0, 0] : Bytes), x < 256) ∧
    (([1, 0, 0, 0, 0] : Bytes).length < 4 →
      DHTSimulator.normalize_address [1, 0, 0, 0, 0] =
        List.replicate (4 - ([1, 0, 0, 0, 0] : Bytes).length) 0 ++
          [1, 0, 0, 0, 0]) ∧
    (4 ≤ ([1, 0, 0, 0, 0] : Bytes).length →
      DHTSimulator.normalize_address [1, 0, 0, 0, 0] =
        ([1, 0, 0, 0, 0] : Bytes).take 4 ∧
      fromBytes (DHTSimulator.normalize_address [1, 0, 0, 0, 0]) =
        fromBytes [1, 0, 0, 0, 0] /
          256 ^ (([1, 0, 0, 0, 0] : Bytes).length - 4)) ∧
    DHTSimulator.calculate_packet_loss_rate [1, 0, 0, 0, 0] [0, 0, 0, 9]
      (1 / 10) (1 / 100) =
      min 1 (max 0 ((1 / 10) + (20 / 100) *
        ((IDUtil.calculate_distance
          (DHTSimulator.normalize_address [1, 0, 0, 0, 0])
          (DHTSimulator.normalize_address [0, 0, 0, 9]) : ℚ) /
          (2 ^ 32 - 1)) + (1 / 100))) :=
  ⟨by decide,
    c6_loss_rate_formula [1, 0, 0, 0, 0] [0, 0, 0, 9] (1 / 10) (1 / 100)
      (by decide)⟩

theorem entryKeyLt_trans {a b c : QEntry} (h1 : entryKeyLt a b)
    (h2 : entryKeyLt b c) : entryKeyLt a c := by
  unfold entryKeyLt at h1 h2 ⊢
  omega

theorem entryKeyLt_of_keyLe {x y : QEntry} (h : x.keyLe y = true)
    (hne : x.ctr ≠ y.ctr) : entryKeyLt x y := by
  unfold QEntry.keyLe at h
  unfold entryKeyLt
  simp only [Bool.or_eq_true, Bool.and_eq_true, decide_eq_true_eq] at h
  omega

theorem entryKeyLt_of_not_keyLe {x y : QEntry} (h : ¬ x.keyLe y = true) :
    entryKeyLt y x := by
  unfold QEntry.keyLe at h
  unfold entryKeyLt
  simp only [Bool.or_eq_true, Bool.and_eq_true, decide_eq_true_eq] at h
  push_neg at h
  omega

theorem mem_insertEntry {x z : QEntry} {l : List QEntry} :
    z ∈ insertEntry x l ↔ z = x ∨ z ∈ l := by
  induction l with
  | nil => simp [insertEntry]
  | cons y ys ih =>
    unfold insertEntry
    by_cases h : x.keyLe y
    · simp [h, List.mem_cons]
    · simp only [h, Bool.false_eq_true, if_false, List.mem_cons, ih]
      tauto

theorem pairwise_insertEntry {x : QEntry} {l : List QEntry}
    (hl : l.Pairwise entryKeyLt) (hctr : ∀ y ∈ l, x.ctr ≠ y.ctr) :
    (insertEntry x l).Pairwise entryKeyLt := by
  induction l with
  | nil => simp [insertEntry]
  | cons y ys ih =>
    unfold insertEntry
    rw [List.pairwise_cons] at hl
    by_cases h : x.keyLe y
    · simp only [h, if_true]
      rw [List.pairwise_cons]
      refine ⟨?_, List.pairwise_cons.mpr hl⟩
      intro z hz
      have hxy : entryKeyLt x y :=
        entryKeyLt_of_keyLe h (hctr y (List.mem_cons_self y ys))
      rcases List.mem_cons.mp hz with rfl | hz'
      · exact hxy
      · exact entryKeyLt_trans hxy (hl.1 z hz')
    · simp only [h, Bool.false_eq_true, if_false]
      rw [List.pairwise_cons]
      refine ⟨?_, ih hl.2
        (fun z hz => hctr z (List.mem_cons_of_mem y hz))⟩
      intro z hz
      rcases mem_insertEntry.mp hz with rfl | hz'
      · exact entryKeyLt_of_not_keyLe h
      · exact hl.1 z hz'

theorem qtrace_step_schedule (s : QTrace) (e : Event) :
    s.step (.schedule e) =
      ⟨⟨insertEntry ⟨e.time, s.q.counter, e⟩ s.q.queue,
        s.q.counter + 1⟩, s.popped⟩ :=
  rfl

theorem qtrace_step_pop_nil {s : QTrace} (hq : s.q.queue = []) :
    s.step .pop = s := by
  unfold QTrace.step EventQueue.pop_event
  simp only [hq]

theorem qtrace_step_pop_cons {s : QTrace} {m : QEntry}
    {rest : List QEntry} (hq : s.q.queue = m :: rest) :
    s.step .pop = ⟨⟨rest, s.q.counter⟩, s.popped ++ [m]⟩ := by
  unfold QTrace.step EventQueue.pop_event
  simp only [hq]

theorem qinv_step {s : QTrace} (op : QOp) (h : QInv s) :
    QInv (s.step op) := by
  obtain ⟨h1, h2, h3, h4, h5⟩ := h
  cases op with
  | schedule e =>
    rw [qtrace_step_schedule]
    refine ⟨?_, ?_, ?_, ?_, h5⟩
    · exact pairwise_insertEntry h1
        (fun y hy => show s.q.counter ≠ y.ctr from
          by have := h2 y hy; omega)
    · intro z hz
      rcases mem_insertEntry.mp hz with rfl | hz'
      · exact Nat.lt_succ_self _
      · have := h2 z hz'
        show z.ctr < s.q.counter + 1
        omega
    · intro p hp
      have := h3 p hp
      show p.ctr < s.q.counter + 1
      omega
    · intro p hp z hz
      rcases mem_insertEntry.mp hz with rfl | hz'
      · intro _
        exact h3 p hp
      · exact h4 p hp z hz'
  | pop =>
    cases hq : s.q.queue with
    | nil =>
      rw [qtrace_step_pop_nil hq]
      exact ⟨h1, h2, h3, h4, h5⟩
    | cons m rest =>
      rw [qtrace_step_pop_cons hq]
      rw [hq] at h1 h2 h4
      rw [List.pairwise_cons] at h1
      refine ⟨h1.2, ?_, ?_, ?_, ?_⟩
      · intro z hz
        exact h2 z (List.mem_cons_of_mem m hz)
      · intro p hp
        rcases List.mem_append.mp hp with hp' | hp'
        · exact h3 p hp'
        · have : p = m := by simpa using hp'
          subst this
          exact h2 p (List.mem_cons_self p rest)
      · intro p hp z hz
        rcases List.mem_append.mp hp with hp' | hp'
        · exact h4 p hp' z (List.mem_cons_of_mem m hz)
        · have : p = m := by simpa using hp'
          subst this
          have hlt := h1.1 z hz
          unfold entryKeyLt at hlt
          omega
      · rw [List.pairwise_append]
        refine ⟨h5, List.pairwise_singleton _ _, ?_⟩
        intro p hp z hz
        have : z = m := by simpa using hz
        subst this
        exact h4 p hp z (List.mem_cons_self z rest)

theorem qinv_runOps (ops : List QOp) : ∀ s, QInv s →
    QInv (runOps s ops) := by
  induction ops with
  | nil =>
    intro s h
    exact h
  | cons op ops ih =>
    intro s h
    rw [runOps, List.foldl_cons]
    exact ih _ (qinv_step op h)

theorem qpast_step_schedule {s : QTrace} {e : Event}
    (hpast : QInvPast s) (hsched : ∀ p ∈ s.popped, p.time ≤ e.time) :
    QInvPast (s.step (.schedule e)) := by
  obtain ⟨p1, p2⟩ := hpast
  refine ⟨?_, p2⟩
  intro p hp z hz
  rcases mem_insertEntry.mp hz with rfl | hz'
  · exact hsched p hp
  · exact p1 p hp z hz'

theorem qpast_step_pop {s : QTrace} (hinv : QInv s)
    (hpast : QInvPast s) : QInvPast (s.step .pop) := by
  obtain ⟨h1, h2, h3, h4, h5⟩ := hinv
  obtain ⟨p1, p2⟩ := hpast
  cases hq : s.q.queue with
  | nil =>
    rw [qtrace_step_pop_nil hq]
    exact ⟨p1, p2⟩
  | cons m rest =>
    rw [qtrace_step_pop_cons hq]
    constructor
    · intro p hp z hz
      rcases List.mem_append.mp hp with hp' | hp'
      · exact p1 p hp' z (by rw [hq]; exact List.mem_cons_of_mem m hz)
      · have : p = m := by simpa using hp'
        subst this
        rw [hq] at h1
        have hlt := (List.pairwise_cons.mp h1).1 z hz
        unfold entryKeyLt at hlt
        omega
    · refine List.chain'_append.mpr ⟨p2, List.chain'_singleton _, ?_⟩
      intro x hx y hy
      have hym : m = y := by simpa using hy
      subst hym
      obtain ⟨hne, hxl⟩ := List.mem_getLast?_eq_getLast hx
      exact p1 x (hxl ▸ List.getLast_mem hne) m
        (by rw [hq]; exact List.mem_cons_self m rest)

theorem qpast_runOps (ops : List QOp) : ∀ s, QInv s → QInvPast s →
    noPastScheduling s ops = true → QInvPast (runOps s ops) := by
  induction ops with
  | nil =>
    intro s _ hp _
    exact hp
  | cons op ops ih =>
    intro s hi hp hnp
    rw [runOps, List.foldl_cons]
    unfold noPastScheduling at hnp
    rw [Bool.and_eq_true] at hnp
    cases op with
    | schedule e =>
      have hsched : ∀ p ∈ s.popped, p.time ≤ e.time := by
        intro p hp'
        have := List.all_eq_true.mp hnp.1 p hp'
        simpa using this
      exact ih _ (qinv_step _ hi) (qpast_step_schedule hp hsched) hnp.2
    | pop => exact ih _ (qinv_step _ hi) (qpast_step_pop hi hp) hnp.2

/-- **C7 counterexample.**  The claim quantifies over *every* sequence
of schedule and pop operations; but if a schedule inserts a time
earlier than an already-popped event (the sequence `schedule t=5; pop;
schedule t=1; pop`), the consecutive popped times are `5, 1` —
decreasing — refuting non-decreasing pop times for arbitrary
sequences. -/
theorem c7_counterexample :
    (runOps {} c7ops).popped.map (fun p => p.time) = [5, 1] ∧
    ¬ ((runOps {} c7ops).popped.Chain' (fun a b => a.time ≤ b.time)) := by
  constructor
  · decide
  · intro h
    have h1 : List.Chain' (fun a b : Nat => a ≤ b)
        ((runOps {} c7ops).popped.map (fun p => p.time)) :=
      (List.chain'_map (fun p : QEntry => p.time)).mpr h
    rw [show (runOps {} c7ops).popped.map (fun p => p.time) = [5, 1]
      from by decide] at h1
    have h2 := (List.chain'_cons.mp h1).1
    omega

/-- **C7 (amended).**  For every sequence of schedule and pop
operations on the event queue, events with equal time come out in the
exact order they were scheduled (FIFO via the monotonic insertion
counter); and provided no event is scheduled with a time earlier than
an already-popped event — which the simulator guarantees, since every
delivery, drop and tick is scheduled at or after the current time —
the times of popped events are non-decreasing across consecutive
pops. -/
theorem c7_event_queue_order (ops : List QOp) :
    ((runOps {} ops).popped.Pairwise
      (fun a b => a.time = b.time → a.ctr < b.ctr)) ∧
    (noPastScheduling {} ops = true →
      (runOps {} ops).popped.Chain' (fun a b => a.time ≤ b.time)) := by
  have hi : QInv {} :=
    ⟨List.Pairwise.nil, by intro e he; simp at he,
      by intro p hp; simp at hp, by intro p hp; simp at hp,
      List.Pairwise.nil⟩
  have hp : QInvPast {} :=
    ⟨by intro p hp; simp at hp, List.chain'_nil⟩
  exact ⟨(qinv_runOps ops {} hi).2.2.2.2,
    fun hnp => (qpast_runOps ops {} hi hp hnp).2⟩

/-- Witness for C7 (amended): three events scheduled before any pop,
two of them at the equal time 1; they come out as `(time, ctr)` pairs
`(1,0), (1,1), (5,2)` — the equal-time pair in scheduling order
(counter 0 before counter 1, a non-vacuous FIFO tie) and the times
non-decreasing. -/
theorem c7_event_queue_order_witness :
    (runOps {} c7goodOps).popped.map (fun p => (p.time, p.ctr)) =
      [(1, 0), (1, 1), (5, 2)] ∧
    noPastScheduling {} c7goodOps = true ∧
    (((runOps {} c7goodOps).popped.Pairwise
      (fun a b => a.time = b.time → a.ctr < b.ctr)) ∧
    ((runOps {} c7goodOps).popped.Chain' (fun a b => a.time ≤ b.time))) :=
  ⟨by decide, by decide,
    (c7_event_queue_order c7goodOps).1,
    (c7_event_queue_order c7goodOps).2 (by decide)⟩

theorem xor_lt_256 {x y : Nat} (hx : x < 256) (hy : y < 256) :
    Nat.xor x y < 256 := by
  show Nat.bitwise bne x y < 256
  have h256 : (256 : Nat) = 2 ^ 8 := by norm_num
  rw [h256] at hx hy ⊢
  exact Nat.bitwise_lt hx hy

theorem zipWith_xor_lt (t : Bytes) (ht : ∀ x ∈ t, x < 256) :
    ∀ (a : Bytes), (∀ x ∈ a, x < 256) →
    ∀ x ∈ List.zipWith Nat.xor t a, x < 256 := by
  induction t with
  | nil => simp
  | cons th tt ih =>
    intro a ha x hx
    cases a with
    | nil => simp at hx
    | cons ah as' =>
      rw [List.zipWith_cons_cons] at hx
      rcases List.mem_cons.mp hx with rfl | hx'
      · exact xor_lt_256 (ht th (List.mem_cons_self th tt))
          (ha ah (List.mem_cons_self ah as'))
      · exact ih (fun z hz => ht z (List.mem_cons_of_mem th hz)) as'
          (fun z hz => ha z (List.mem_cons_of_mem ah hz)) x hx'

theorem fromBytes_inj : ∀ {a b : Bytes}, a.length = b.length →
    (∀ x ∈ a, x < 256) → (∀ x ∈ b, x < 256) →
    fromBytes a = fromBytes b → a = b := by
  intro a
  induction a with
  | nil =>
    intro b hlen _ _ _
    cases b with
    | nil => rfl
    | cons y ys => simp at hlen
  | cons x xs ih =>
    intro b hlen ha hb heq
    cases b with
    | nil => simp at hlen
    | cons y ys =>
      have hlen' : xs.length = ys.length := by simpa using hlen
      rw [fromBytes_cons, fromBytes_cons, ← hlen'] at heq
      have hq : 0 < 256 ^ xs.length := Nat.pos_pow_of_pos _ (by omega)
      have hxs : fromBytes xs < 256 ^ xs.length :=
        fromBytes_lt xs (fun z hz => ha z (List.mem_cons_of_mem x hz))
      have hys : fromBytes ys < 256 ^ xs.length := by
        rw [hlen']
        exact fromBytes_lt ys (fun z hz => hb z (List.mem_cons_of_mem y hz))
      have hxy : x = y := by
        have e1 : (x * 256 ^ xs.length + fromBytes xs) / 256 ^ xs.length =
            x := by
          rw [Nat.mul_comm, Nat.mul_add_div hq, Nat.div_eq_of_lt hxs,
            Nat.add_zero]
        have e2 : (y * 256 ^ xs.length + fromBytes ys) / 256 ^ xs.length =
            y := by
          rw [Nat.mul_comm, Nat.mul_add_div hq, Nat.div_eq_of_lt hys,
            Nat.add_zero]
        rw [← e1, ← e2, heq]
      subst hxy
      have htail : fromBytes xs = fromBytes ys :=
        Nat.add_left_cancel heq
      rw [ih hlen' (fun z hz => ha z (List.mem_cons_of_mem x hz))
        (fun z hz => hb z (List.mem_cons_of_mem x hz)) htail]

theorem zipWith_xor_cancel : ∀ (t a b : Bytes), a.length = t.length →
    b.length = t.length →
    List.zipWith Nat.xor t a = List.zipWith Nat.xor t b → a = b
  | [], a, b, hla, hlb, _ => by
      cases a with
      | nil =>
        cases b with
        | nil => rfl
        | cons bh bs => simp at hlb
      | cons ah as' => simp at hla
  | th :: tt, a, b, hla, hlb, h => by
      cases a with
      | nil => simp at hla
      | cons ah as' =>
        cases b with
        | nil => simp at hlb
        | cons bh bs =>
          rw [List.zipWith_cons_cons, List.zipWith_cons_cons] at h
          injection h with h1 h2
          rw [Nat.xor_right_inj.mp h1,
            zipWith_xor_cancel tt as' bs (by simpa using hla)
              (by simpa using hlb) h2]

theorem calculate_distance_inj {t a b : Bytes}
    (hla : a.length = t.length) (hlb : b.length = t.length)
    (ht : ∀ x ∈ t, x < 256) (ha : ∀ x ∈ a, x < 256)
    (hb : ∀ x ∈ b, x < 256)
    (h : IDUtil.calculate_distance t a = IDUtil.calculate_distance t b) :
    a = b := by
  unfold IDUtil.calculate_distance at h
  have hz := fromBytes_inj
    (by rw [List.length_zipWith, List.length_zipWith, hla, hlb])
    (zipWith_xor_lt t ht a ha) (zipWith_xor_lt t ht b hb) h
  exact zipWith_xor_cancel t a b hla hlb hz

/-- **C3.**  `find_closest_nodes(target, n)` scans all buckets and
returns at most `n` contacts, without duplicates, in non-decreasing
XOR-distance order, satisfying the lexicographic tie-break (for
well-formed tables the XOR distances of distinct ids are distinct, so
the order is in fact strictly increasing and the tie-break is
trivially satisfied), and every table contact left out is at least as
far from the target as every returned contact. -/
theorem c3_find_closest_spec (rt : RoutingTable) (target : Bytes)
    (n : Nat)
    (hlen : ∀ e ∈ rt.all_nodes, e.id.length = target.length)
    (hbytes : ∀ e ∈ rt.all_nodes, ∀ x ∈ e.id, x < 256)
    (htb : ∀ x ∈ target, x < 256)
    (hnd : (rt.all_nodes.map NodeEntry.id).Nodup) :
    (rt.find_closest_nodes target (some n)).length ≤ n ∧
    ((rt.find_closest_nodes target (some n)).map NodeEntry.id).Nodup ∧
    (rt.find_closest_nodes target (some n)).Pairwise
      (fun a b => IDUtil.calculate_distance target a.id ≤
        IDUtil.calculate_distance target b.id) ∧
    (rt.find_closest_nodes target (some n)).Pairwise
      (fun a b => IDUtil.calculate_distance target a.id <
          IDUtil.calculate_distance target b.id ∨
        (IDUtil.calculate_distance target a.id =
          IDUtil.calculate_distance target b.id ∧ bytesLexLe a.id b.id)) ∧
    (∀ e ∈ rt.all_nodes, e ∉ rt.find_closest_nodes target (some n) →
      ∀ c ∈ rt.find_closest_nodes target (some n),
        IDUtil.calculate_distance target c.id ≤
          IDUtil.calculate_distance target e.id) := by
  haveI hTot : IsTotal (Nat × NodeEntry) (fun a b => a.1 ≤ b.1) :=
    ⟨fun a b => Nat.le_total a.1 b.1⟩
  haveI hTrans : IsTrans (Nat × NodeEntry) (fun a b => a.1 ≤ b.1) :=
    ⟨fun a b c h1 h2 => Nat.le_trans h1 h2⟩
  have hres : rt.find_closest_nodes target (some n) =
      ((((rt.all_nodes).map
        (fun e => (IDUtil.calculate_distance target e.id, e))).insertionSort
        (fun a b => a.1 ≤ b.1)).take n).map (fun x => x.2) := rfl
  have hperm := List.perm_insertionSort (fun (a b : Nat × NodeEntry) =>
    a.1 ≤ b.1) ((rt.all_nodes).map
      (fun e => (IDUtil.calculate_distance target e.id, e)))
  have hsort := List.sorted_insertionSort (fun (a b : Nat × NodeEntry) =>
    a.1 ≤ b.1) ((rt.all_nodes).map
      (fun e => (IDUtil.calculate_distance target e.id, e)))
  set S := (((rt.all_nodes).map
    (fun e => (IDUtil.calculate_distance target e.id, e))).insertionSort
    (fun a b => a.1 ≤ b.1)) with hSdef
  -- membership transfer and key consistency
  have hSsub : ∀ p ∈ S, p.1 = IDUtil.calculate_distance target p.2.id ∧
      p.2 ∈ rt.all_nodes := by
    intro p hp
    have hpL := hperm.mem_iff.mp hp
    obtain ⟨e, he, rfl⟩ := List.mem_map.mp hpL
    exact ⟨rfl, he⟩
  -- the entry ids of S are distinct
  have hSids : (S.map (fun p => p.2.id)).Nodup := by
    have h1 : S.map (fun p => p.2.id) =
        ((rt.all_nodes).map
          (fun e => (IDUtil.calculate_distance target e.id, e))).map
          (fun p => p.2.id) ∨ True := Or.inr trivial
    have hmapped := hperm.map (fun p : Nat × NodeEntry => p.2.id)
    rw [List.map_map] at hmapped
    exact hmapped.nodup_iff.mpr hnd
  -- the sort keys of S are pairwise distinct
  have hSkeys : S.Pairwise (fun a b : Nat × NodeEntry => a.1 ≠ b.1) := by
    have hidsne : S.Pairwise
        (fun a b : Nat × NodeEntry => a.2.id ≠ b.2.id) := by
      rw [← List.pairwise_map]
      exact hSids
    refine hidsne.imp_of_mem ?_
    intro a b ha hb hids hkeys
    obtain ⟨hka, hma⟩ := hSsub a ha
    obtain ⟨hkb, hmb⟩ := hSsub b hb
    rw [hka, hkb] at hkeys
    exact hids (calculate_distance_inj (hlen _ hma) (hlen _ hmb) htb
      (hbytes _ hma) (hbytes _ hmb) hkeys)
  -- strictly increasing keys
  have hSstrict : S.Pairwise (fun a b : Nat × NodeEntry => a.1 < b.1) :=
    (hsort.and hSkeys).imp (fun h => by omega)
  have hTstrict : (S.take n).Pairwise
      (fun a b : Nat × NodeEntry => a.1 < b.1) :=
    hSstrict.sublist (List.take_sublist n S)
  have hTsub : ∀ p ∈ S.take n, p ∈ S :=
    fun p hp => (List.take_sublist n S).mem hp
  rw [hres]
  refine ⟨?_, ?_, ?_, ?_, ?_⟩
  · rw [List.length_map, List.length_take]
    exact min_le_left _ _
  · rw [List.map_map]
    show ((S.take n).map (fun p => p.2.id)).Nodup
    rw [List.map_take]
    exact hSids.sublist (List.take_sublist n _)
  · rw [List.pairwise_map]
    refine hTstrict.imp_of_mem ?_
    intro a b ha hb hlt
    rw [(hSsub a (hTsub a ha)).1, (hSsub b (hTsub b hb)).1] at hlt
    omega
  · rw [List.pairwise_map]
    refine hTstrict.imp_of_mem ?_
    intro a b ha hb hlt
    rw [(hSsub a (hTsub a ha)).1, (hSsub b (hTsub b hb)).1] at hlt
    exact Or.inl hlt
  · intro e he hnotin c hc
    obtain ⟨p, hpT, rfl⟩ := List.mem_map.mp hc
    have hpe : (IDUtil.calculate_distance target e.id, e) ∈ S := by
      refine hperm.mem_iff.mpr ?_
      exact List.mem_map_of_mem _ he
    have hkeysplit := List.pairwise_append.mp
      ((List.take_append_drop n S) ▸ hsort)
    have hpd : (IDUtil.calculate_distance target e.id, e) ∈ S.drop n := by
      rcases (List.mem_append.mp
        ((List.take_append_drop n S) ▸ hpe)) with h | h
      · exact absurd (List.mem_map_of_mem (fun x => x.2) h) hnotin
      · exact h
    have := hkeysplit.2.2 p hpT _ hpd
    rw [(hSsub p (hTsub p hpT)).1] at this
    exact this

/-- Witness for C3 at a concrete two-contact table. -/
theorem c3_find_closest_spec_witness :
    ((∀ e ∈ c3Table.all_nodes, e.id.length = ([3] : Bytes).length) ∧
      (∀ e ∈ c3Table.all_nodes, ∀ x ∈ e.id, x < 256) ∧
      (∀ x ∈ ([3] : Bytes), x < 256) ∧
      (c3Table.all_nodes.map NodeEntry.id).Nodup) ∧
    ((c3Table.find_closest_nodes [3] (some 8)).length ≤ 8 ∧
      ((c3Table.find_closest_nodes [3] (some 8)).map NodeEntry.id).Nodup ∧
      (c3Table.find_closest_nodes [3] (some 8)).Pairwise
        (fun a b => IDUtil.calculate_distance [3] a.id ≤
          IDUtil.calculate_distance [3] b.id) ∧
      (c3Table.find_closest_nodes [3] (some 8)).Pairwise
        (fun a b => IDUtil.calculate_distance [3] a.id <
            IDUtil.calculate_distance [3] b.id ∨
          (IDUtil.calculate_distance [3] a.id =
            IDUtil.calculate_distance [3] b.id ∧ bytesLexLe a.id b.id)) ∧
      (∀ e ∈ c3Table.all_nodes,
        e ∉ c3Table.find_closest_nodes [3] (some 8) →
        ∀ c ∈ c3Table.find_closest_nodes [3] (some 8),
          IDUtil.calculate_distance [3] c.id ≤
            IDUtil.calculate_distance [3] e.id)) :=
  ⟨⟨by decide, by decide, by decide, by decide⟩,
    c3_find_closest_spec c3Table [3] 8 (by decide) (by decide) (by decide)
      (by decide)⟩

theorem mem_all_nodes_iff {rt : RoutingTable} {e : NodeEntry} :
    e ∈ rt.all_nodes ↔ ∃ j, ∃ h : j < rt.buckets.length,
      e ∈ (rt.buckets.get ⟨j, h⟩).nodes := by
  unfold RoutingTable.all_nodes KBucket.get_nodes
  rw [List.mem_flatMap]
  constructor
  · rintro ⟨bkt, hbkt, he⟩
    obtain ⟨⟨j, hj⟩, rfl⟩ := List.mem_iff_get.mp hbkt
    exact ⟨j, hj, he⟩
  · rintro ⟨j, hj, he⟩
    exact ⟨_, List.get_mem rt.buckets j hj, he⟩

theorem RoutingTable.remove_node_eq_neg {rt : RoutingTable} {nid : Bytes}
    (h : IDUtil.get_bucket_index rt.node_id nid < 0) :
    rt.remove_node nid = (false, rt) := by
  unfold RoutingTable.remove_node
  rw [if_pos h]

theorem RoutingTable.remove_node_eq_pos {rt : RoutingTable} {nid : Bytes}
    (h : ¬ IDUtil.get_bucket_index rt.node_id nid < 0) :
    rt.remove_node nid =
      (((rt.buckets.getD (IDUtil.get_bucket_index rt.node_id nid).toNat
          ⟨[], rt.k_value⟩).remove_node nid).1,
       { rt with buckets :=
           (rt.buckets.set
             (IDUtil.get_bucket_index rt.node_id nid).toNat
             ((rt.buckets.getD
               (IDUtil.get_bucket_index rt.node_id nid).toNat
               ⟨[], rt.k_value⟩).remove_node nid).2) }) := by
  unfold RoutingTable.remove_node
  rw [if_neg h]

theorem bucket_ids_nodup {rt : RoutingTable} (hwf : rt.WF) (i : Nat) :
    (((rt.buckets.getD i ⟨[], rt.k_value⟩).nodes.map
      NodeEntry.id)).Nodup := by
  by_cases hi : i < rt.buckets.length
  · rw [List.getD_eq_getElem rt.buckets _ hi]
    exact hwf.2 _ (List.getElem_mem hi)
  · rw [List.getD_eq_default rt.buckets _ (by omega)]
    exact List.nodup_nil

theorem remove_node_all_nodes_subset (rt : RoutingTable) (nid : Bytes) :
    ∀ e ∈ (rt.remove_node nid).2.all_nodes, e ∈ rt.all_nodes := by
  intro e he
  by_cases h : IDUtil.get_bucket_index rt.node_id nid < 0
  · rw [RoutingTable.remove_node_eq_neg h] at he
    exact he
  · rw [RoutingTable.remove_node_eq_pos h] at he
    obtain ⟨j, hj, hej⟩ := mem_all_nodes_iff.mp he
    have hj' : j < rt.buckets.length := by
      simpa [List.length_set] using hj
    rw [mem_all_nodes_iff]
    refine ⟨j, hj', ?_⟩
    rw [List.get_eq_getElem] at hej
    by_cases hij : (IDUtil.get_bucket_index rt.node_id nid).toNat = j
    · rw [List.getElem_set, if_pos hij] at hej
      subst hij
      cases hrem : removeFirstById
          (rt.buckets.getD (IDUtil.get_bucket_index rt.node_id nid).toNat
            ⟨[], rt.k_value⟩).nodes nid with
      | some rest =>
        rw [KBucket.remove_node_eq_of_some hrem] at hej
        have hsub := removeFirstById_sublist hrem
        have : e ∈ (rt.buckets.getD
            (IDUtil.get_bucket_index rt.node_id nid).toNat
            ⟨[], rt.k_value⟩).nodes := hsub.mem hej
        rw [List.getD_eq_getElem rt.buckets _ hj'] at this
        rw [List.get_eq_getElem]
        exact this
      | none =>
        rw [KBucket.remove_node_eq_of_none hrem] at hej
        rw [List.getD_eq_getElem rt.buckets _ hj'] at hej
        rw [List.get_eq_getElem]
        exact hej
    · rw [List.getElem_set, if_neg hij] at hej
      rw [List.get_eq_getElem]
      exact hej

theorem remove_node_not_mem {rt : RoutingTable} (hwf : rt.WF)
    (nid : Bytes) :
    ∀ e ∈ (rt.remove_node nid).2.all_nodes, e.id ≠ nid := by
  intro e he hid
  by_cases h : IDUtil.get_bucket_index rt.node_id nid < 0
  · rw [RoutingTable.remove_node_eq_neg h] at he
    obtain ⟨j, hj, hej⟩ := mem_all_nodes_iff.mp he
    have := hwf.1 j hj e hej
    rw [hid] at this
    rw [this] at h
    omega
  · rw [RoutingTable.remove_node_eq_pos h] at he
    obtain ⟨j, hj, hej⟩ := mem_all_nodes_iff.mp he
    have hj' : j < rt.buckets.length := by
      simpa [List.length_set] using hj
    rw [List.get_eq_getElem] at hej
    by_cases hij : (IDUtil.get_bucket_index rt.node_id nid).toNat = j
    · rw [List.getElem_set, if_pos hij] at hej
      cases hrem : removeFirstById
          (rt.buckets.getD (IDUtil.get_bucket_index rt.node_id nid).toNat
            ⟨[], rt.k_value⟩).nodes nid with
      | some rest =>
        rw [KBucket.remove_node_eq_of_some hrem] at hej
        exact removeFirstById_not_mem
          (bucket_ids_nodup hwf _) hrem e hej hid
      | none =>
        rw [KBucket.remove_node_eq_of_none hrem] at hej
        exact removeFirstById_eq_none.mp hrem e hej hid
    · rw [List.getElem_set, if_neg hij] at hej
      have := hwf.1 j hj' e (by rw [List.get_eq_getElem]; exact hej)
      rw [hid] at this
      rw [this, Int.toNat_ofNat] at hij
      exact hij rfl

theorem remove_node_WF {rt : RoutingTable} (hwf : rt.WF) (nid : Bytes) :
    (rt.remove_node nid).2.WF := by
  by_cases h : IDUtil.get_bucket_index rt.node_id nid < 0
  · rw [RoutingTable.remove_node_eq_neg h]
    exact hwf
  · rw [RoutingTable.remove_node_eq_pos h]
    constructor
    · intro j hj e hej
      have hj' : j < rt.buckets.length := by
        simpa [List.length_set] using hj
      rw [List.get_eq_getElem] at hej
      show IDUtil.get_bucket_index rt.node_id e.id = (j : Int)
      by_cases hij : (IDUtil.get_bucket_index rt.node_id nid).toNat = j
      · rw [List.getElem_set, if_pos hij] at hej
        have hmem : e ∈ (rt.buckets.getD
            (IDUtil.get_bucket_index rt.node_id nid).toNat
            ⟨[], rt.k_value⟩).nodes := by
          cases hrem : removeFirstById
              (rt.buckets.getD
                (IDUtil.get_bucket_index rt.node_id nid).toNat
                ⟨[], rt.k_value⟩).nodes nid with
          | some rest =>
            rw [KBucket.remove_node_eq_of_some hrem] at hej
            exact (removeFirstById_sublist hrem).mem hej
          | none =>
            rw [KBucket.remove_node_eq_of_none hrem] at hej
            exact hej
        rw [List.getD_eq_getElem rt.buckets _ (hij ▸ hj')] at hmem
        have := hwf.1 _ (hij ▸ hj') e
          (by rw [List.get_eq_getElem]; exact hmem)
        rw [this, hij]
      · rw [List.getElem_set, if_neg hij] at hej
        exact hwf.1 j hj' e (by rw [List.get_eq_getElem]; exact hej)
    · intro bkt hbkt
      rcases List.mem_or_eq_of_mem_set hbkt with hold | rfl
      · exact hwf.2 bkt hold
      · cases hrem : removeFirstById
            (rt.buckets.getD (IDUtil.get_bucket_index rt.node_id nid).toNat
              ⟨[], rt.k_value⟩).nodes nid with
        | some rest =>
          rw [KBucket.remove_node_eq_of_some hrem]
          exact (bucket_ids_nodup hwf _).sublist
            ((removeFirstById_sublist hrem).map NodeEntry.id)
        | none =>
          rw [KBucket.remove_node_eq_of_none hrem]
          exact bucket_ids_nodup hwf _

theorem hpt_eq_none {s : DHTNode} {g : Gen} {now : Nat} {t : TxId}
    (hl : pendingLookup s.pending_responses t = none) :
    DHTNode.handle_ping_timeout s g now t = (s, [], g) := by
  unfold DHTNode.handle_ping_timeout
  simp only [hl]

theorem hpt_eq_not_ping {s : DHTNode} {g : Gen} {now : Nat} {t : TxId}
    {info : PendingInfo}
    (hl : pendingLookup s.pending_responses t = some info)
    (hk : info.kind ≠ "ping") :
    DHTNode.handle_ping_timeout s g now t = (s, [], g) := by
  unfold DHTNode.handle_ping_timeout
  simp only [hl]
  rw [if_pos hk]

theorem hpt_eq_retry (g : Gen) (now : Nat) {s : DHTNode} {t : TxId}
    {info : PendingInfo}
    (hl : pendingLookup s.pending_responses t = some info)
    (hk : info.kind = "ping")
    (hr : info.retry_count < DHTNode.MAX_RETRIES) :
    DHTNode.handle_ping_timeout s g now t =
      ({ s with pending_responses :=
          (pendingSet s.pending_responses t
            { info with retry_count := info.retry_count + 1,
                        time := now }) },
       [{ type := .ping, source_id := s.node_id,
          target_id := info.target_id,
          content := .ping (info.retry_count + 1),
          transaction_id := g.txs g.i, send_time := some now }],
       { g with i := g.i + 1 }) := by
  unfold DHTNode.handle_ping_timeout
  simp only [hl]
  rw [if_neg (show ¬ info.kind ≠ "ping" from fun hh => hh hk), if_pos hr]
  rfl

theorem hpt_eq_evict (g : Gen) (now : Nat) {s : DHTNode} {t : TxId}
    {info : PendingInfo}
    (hl : pendingLookup s.pending_responses t = some info)
    (hk : info.kind = "ping")
    (hr : ¬ info.retry_count < DHTNode.MAX_RETRIES) :
    DHTNode.handle_ping_timeout s g now t =
      ({ s with
          routing_table := (s.routing_table.remove_node info.target_id).2,
          pending_responses := (pendingErase s.pending_responses t) },
       [], g) := by
  unfold DHTNode.handle_ping_timeout
  simp only [hl]
  rw [if_neg (show ¬ info.kind ≠ "ping" from fun hh => hh hk), if_neg hr]

theorem hpt_pending_lookup_ne {s : DHTNode} {g : Gen} {now : Nat}
    {u t : TxId} (hne : u ≠ t) :
    pendingLookup
      ((DHTNode.handle_ping_timeout s g now u).1).pending_responses t =
    pendingLookup s.pending_responses t := by
  cases hl : pendingLookup s.pending_responses u with
  | none => rw [hpt_eq_none hl]
  | some info =>
    by_cases hk : info.kind = "ping"
    · by_cases hr : info.retry_count < DHTNode.MAX_RETRIES
      · rw [hpt_eq_retry g now hl hk hr]
        exact pendingLookup_set_ne _ _ _ _ (fun hh => hne hh.symm)
      · rw [hpt_eq_evict g now hl hk hr]
        show pendingLookup (pendingErase s.pending_responses u) t = _
        rw [pendingLookup_erase, if_neg (fun hh => hne hh.symm)]
    · rw [hpt_eq_not_ping hl hk]

theorem hpt_routing_subset {s : DHTNode} {g : Gen} {now : Nat}
    {u : TxId} :
    ∀ c ∈ ((DHTNode.handle_ping_timeout s g now u).1).routing_table.all_nodes,
      c ∈ s.routing_table.all_nodes := by
  cases hl : pendingLookup s.pending_responses u with
  | none =>
    rw [hpt_eq_none hl]
    exact fun c hc => hc
  | some info =>
    by_cases hk : info.kind = "ping"
    · by_cases hr : info.retry_count < DHTNode.MAX_RETRIES
      · rw [hpt_eq_retry g now hl hk hr]
        exact fun c hc => hc
      · rw [hpt_eq_evict g now hl hk hr]
        exact remove_node_all_nodes_subset _ _
    · rw [hpt_eq_not_ping hl hk]
      exact fun c hc => hc

theorem hpt_WF {s : DHTNode} {g : Gen} {now : Nat} {u : TxId}
    (hwf : s.routing_table.WF) :
    ((DHTNode.handle_ping_timeout s g now u).1).routing_table.WF := by
  cases hl : pendingLookup s.pending_responses u with
  | none =>
    rw [hpt_eq_none hl]
    exact hwf
  | some info =>
    by_cases hk : info.kind = "ping"
    · by_cases hr : info.retry_count < DHTNode.MAX_RETRIES
      · rw [hpt_eq_retry g now hl hk hr]
        exact hwf
      · rw [hpt_eq_evict g now hl hk hr]
        exact remove_node_WF hwf _
    · rw [hpt_eq_not_ping hl hk]
      exact hwf

theorem fold_hpt_lookup_ne (now : Nat) (t : TxId) :
    ∀ ts : List TxId, t ∉ ts →
    ∀ acc : DHTNode × List Message × Gen,
    pendingLookup ((ts.foldl (fun acc t =>
      let r := DHTNode.handle_ping_timeout acc.1 acc.2.2 now t
      (r.1, acc.2.1 ++ r.2.1, r.2.2)) acc).1).pending_responses t =
    pendingLookup acc.1.pending_responses t := by
  intro ts
  induction ts with
  | nil =>
    intro _ acc
    rfl
  | cons x xs ih =>
    intro hnot acc
    rw [List.foldl_cons, ih (fun hh => hnot (List.mem_cons_of_mem x hh))]
    exact hpt_pending_lookup_ne
      (fun he => hnot (he ▸ List.mem_cons_self x xs))

theorem fold_hpt_routing_subset (now : Nat) :
    ∀ ts : List TxId, ∀ acc : DHTNode × List Message × Gen,
    ∀ c ∈ ((ts.foldl (fun acc t =>
      let r := DHTNode.handle_ping_timeout acc.1 acc.2.2 now t
      (r.1, acc.2.1 ++ r.2.1, r.2.2)) acc).1).routing_table.all_nodes,
    c ∈ acc.1.routing_table.all_nodes := by
  intro ts
  induction ts with
  | nil =>
    intro acc c hc
    exact hc
  | cons x xs ih =>
    intro acc c hc
    rw [List.foldl_cons] at hc
    have h1 := ih _ c hc
    exact hpt_routing_subset c h1

theorem fold_hpt_WF (now : Nat) :
    ∀ ts : List TxId, ∀ acc : DHTNode × List Message × Gen,
    acc.1.routing_table.WF →
    ((ts.foldl (fun acc t =>
      let r := DHTNode.handle_ping_timeout acc.1 acc.2.2 now t
      (r.1, acc.2.1 ++ r.2.1, r.2.2)) acc).1).routing_table.WF := by
  intro ts
  induction ts with
  | nil =>
    intro acc h
    exact h
  | cons x xs ih =>
    intro acc h
    rw [List.foldl_cons]
    exact ih _ (hpt_WF h)

theorem fold_hpt_msgs_mono (now : Nat) :
    ∀ ts : List TxId, ∀ acc : DHTNode × List Message × Gen,
    ∀ m ∈ acc.2.1,
    m ∈ ((ts.foldl (fun acc t =>
      let r := DHTNode.handle_ping_timeout acc.1 acc.2.2 now t
      (r.1, acc.2.1 ++ r.2.1, r.2.2)) acc).2).1 := by
  intro ts
  induction ts with
  | nil =>
    intro acc m hm
    exact hm
  | cons x xs ih =>
    intro acc m hm
    rw [List.foldl_cons]
    exact ih _ m (List.mem_append_left _ hm)

theorem handle_event_tick_eq (s : DHTNode) (g : Gen) (now : Nat)
    (e : Event)
    (hev : e.etype = EventType.simulation_tick)
    (hgate : s.last_check_time + 100 ≤ now) :
    s.handle_event g now e =
      ((s.pending_responses.filter
        (fun x => x.2.kind = "ping" ∧
          x.2.time + DHTNode.PING_TIMEOUT ≤ now)).map
        (fun x => x.1)).foldl
        (fun acc t =>
          let r := DHTNode.handle_ping_timeout acc.1 acc.2.2 now t
          (r.1, acc.2.1 ++ r.2.1, r.2.2))
        ({ s with last_check_time := now }, [], g) := by
  unfold DHTNode.handle_event
  simp only [hev]
  rw [if_pos hgate]

/-- **C8 counterexample.**  The claim says *each* `SIMULATION_TICK`
triggers the pending-PING sweep, but the source runs the sweep only
when `current_time - self.last_check_time >= 100` (dht_node.py line
97) — and `SIMULATION_TICK` fires on every clock change, which can be
as little as 1 virtual ms after the previous one.  Concretely: a node
whose last sweep ran at time 1950 holds a `ping` record expired since
time 2000 with `retry_count = 0 < MAX_RETRIES`; on the tick at time
2001 the gate fails and the node does nothing at all — the record
keeps `retry_count = 0` and its old `sent_at`, and no `PING` is
re-sent — contradicting the claimed increment-and-resend. -/
theorem c8_counterexample :
    lateTickEvent.etype = EventType.simulation_tick ∧
    (7, pingInfo) ∈ gatedPingNode.pending_responses ∧
    pingInfo.kind = "ping" ∧
    pingInfo.time + DHTNode.PING_TIMEOUT ≤ 2001 ∧
    pingInfo.retry_count < DHTNode.MAX_RETRIES ∧
    ¬ (gatedPingNode.last_check_time + 100 ≤ 2001) ∧
    gatedPingNode.handle_event gen0 2001 lateTickEvent =
      (gatedPingNode, [], gen0) ∧
    pendingLookup
      ((gatedPingNode.handle_event gen0 2001
        lateTickEvent).1).pending_responses 7 = some pingInfo ∧
    (gatedPingNode.handle_event gen0 2001 lateTickEvent).2.1 = [] :=
  ⟨rfl, by decide, rfl, by decide, by decide, by decide,
    rfl, by decide, rfl⟩

/-- **C8 (amended).**  A node sweeps its pending-PING table on a
`SIMULATION_TICK` only when at least 100 virtual ms have elapsed since
its previous sweep (`current_time - last_check_time >= 100`); on such
a sweep, for every pending `ping` whose `sent_at` plus the 2000
virtual-ms `PING_TIMEOUT` has elapsed: if
`retry_count < MAX_RETRIES (= 2)`, the record's retry count is
incremented and its `sent_at` reset to the current time, and a fresh
`PING` to the target with the incremented retry count is sent;
otherwise the target is removed from the routing table and the
pending record dropped. -/
theorem c8_ping_timeout_retry_and_evict (s : DHTNode) (g : Gen)
    (now : Nat) (e : Event) (t : TxId) (info : PendingInfo)
    (hev : e.etype = EventType.simulation_tick)
    (hgate : s.last_check_time + 100 ≤ now)
    (hnd : (s.pending_responses.map Prod.fst).Nodup)
    (hmem : (t, info) ∈ s.pending_responses)
    (hkind : info.kind = "ping")
    (hexp : info.time + DHTNode.PING_TIMEOUT ≤ now)
    (hwf : s.routing_table.WF) :
    (info.retry_count < DHTNode.MAX_RETRIES →
      pendingLookup ((s.handle_event g now e).1).pending_responses t =
        some { info with retry_count := info.retry_count + 1,
                         time := now } ∧
      ∃ m ∈ (s.handle_event g now e).2.1,
        m.type = MessageType.ping ∧ m.target_id = info.target_id ∧
        m.content = Content.ping (info.retry_count + 1) ∧
        m.send_time = some now) ∧
    (DHTNode.MAX_RETRIES ≤ info.retry_count →
      pendingLookup ((s.handle_event g now e).1).pending_responses t =
        none ∧
      ∀ c ∈ ((s.handle_event g now e).1).routing_table.all_nodes,
        c.id ≠ info.target_id) := by
  rw [handle_event_tick_eq s g now e hev hgate]
  have htmem : t ∈ (s.pending_responses.filter
      (fun x => x.2.kind = "ping" ∧
        x.2.time + DHTNode.PING_TIMEOUT ≤ now)).map (fun x => x.1) := by
    refine List.mem_map.mpr ⟨(t, info), ?_, rfl⟩
    rw [List.mem_filter]
    exact ⟨hmem, decide_eq_true ⟨hkind, hexp⟩⟩
  have hndt : ((s.pending_responses.filter
      (fun x => x.2.kind = "ping" ∧
        x.2.time + DHTNode.PING_TIMEOUT ≤ now)).map
      (fun x => x.1)).Nodup :=
    hnd.sublist ((List.filter_sublist _).map _)
  obtain ⟨l1, l2, hsplit⟩ := List.append_of_mem htmem
  have hnotl1 : t ∉ l1 := by
    rw [hsplit] at hndt
    intro hh
    exact (List.nodup_append.mp hndt).2.2 hh (List.mem_cons_self t l2)
  have hnotl2 : t ∉ l2 := by
    rw [hsplit] at hndt
    have h2 := (List.nodup_append.mp hndt).2.1
    rw [List.nodup_cons] at h2
    exact h2.1
  rw [hsplit, List.foldl_append, List.foldl_cons]
  set acc1 := l1.foldl (fun acc t =>
    let r := DHTNode.handle_ping_timeout acc.1 acc.2.2 now t
    (r.1, acc.2.1 ++ r.2.1, r.2.2))
    ({ s with last_check_time := now }, [], g) with hacc1
  have hlook1 : pendingLookup acc1.1.pending_responses t = some info := by
    rw [hacc1, fold_hpt_lookup_ne now t l1 hnotl1]
    exact pendingLookup_of_mem_nodup hnd hmem
  have hwf1 : acc1.1.routing_table.WF := by
    rw [hacc1]
    exact fold_hpt_WF now l1 _ hwf
  constructor
  · intro hr
    have hstep := hpt_eq_retry acc1.2.2 now hlook1 hkind hr
    constructor
    · rw [fold_hpt_lookup_ne now t l2 hnotl2]
      show pendingLookup
        ((DHTNode.handle_ping_timeout acc1.1 acc1.2.2
          now t).1).pending_responses t = _
      rw [hstep]
      exact pendingLookup_set_self _ _ _
    · refine ⟨{ type := .ping, source_id := acc1.1.node_id,
                target_id := info.target_id,
                content := .ping (info.retry_count + 1),
                transaction_id := acc1.2.2.txs acc1.2.2.i,
                send_time := some now }, ?_, rfl, rfl, rfl, rfl⟩
      apply fold_hpt_msgs_mono
      show _ ∈ acc1.2.1 ++
        (DHTNode.handle_ping_timeout acc1.1 acc1.2.2 now t).2.1
      rw [hstep]
      exact List.mem_append_right _ (List.mem_cons_self _ _)
  · intro hr
    have hr' : ¬ info.retry_count < DHTNode.MAX_RETRIES := by omega
    have hstep := hpt_eq_evict acc1.2.2 now hlook1 hkind hr'
    constructor
    · rw [fold_hpt_lookup_ne now t l2 hnotl2]
      show pendingLookup
        ((DHTNode.handle_ping_timeout acc1.1 acc1.2.2
          now t).1).pending_responses t = none
      rw [hstep]
      show pendingLookup (pendingErase acc1.1.pending_responses t) t =
        none
      rw [pendingLookup_erase, if_pos rfl]
    · intro c hc
      have hc1 := fold_hpt_routing_subset now l2 _ c hc
      have hc2 : c ∈ ((DHTNode.handle_ping_timeout acc1.1 acc1.2.2
          now t).1).routing_table.all_nodes := hc1
      rw [hstep] at hc2
      exact remove_node_not_mem hwf1 info.target_id c hc2

theorem init_WF (nid : Bytes) (k bits : Nat) :
    (RoutingTable.init nid k bits).WF := by
  constructor
  · intro j h e he
    have hb : (RoutingTable.init nid k bits).buckets.get ⟨j, h⟩ =
        ⟨[], k⟩ := List.get_replicate _ _
    rw [hb] at he
    simp [KBucket.get_nodes] at he
  · intro bkt hb
    have hb' : bkt = ⟨[], k⟩ := List.eq_of_mem_replicate hb
    rw [hb']
    exact List.nodup_nil

/-- Witness for C8: the concrete node with one expired pending `ping`
(retry count 0) at virtual time 2000. -/
theorem c8_ping_timeout_retry_and_evict_witness :
    (tickEvent.etype = EventType.simulation_tick ∧
      pingPendingNode.last_check_time + 100 ≤ 2000 ∧
      (pingPendingNode.pending_responses.map Prod.fst).Nodup ∧
      (7, pingInfo) ∈ pingPendingNode.pending_responses ∧
      pingInfo.kind = "ping" ∧
      pingInfo.time + DHTNode.PING_TIMEOUT ≤ 2000 ∧
      pingPendingNode.routing_table.WF) ∧
    ((pingInfo.retry_count < DHTNode.MAX_RETRIES →
      pendingLookup
        ((pingPendingNode.handle_event gen0 2000
          tickEvent).1).pending_responses 7 =
        some { pingInfo with retry_count := pingInfo.retry_count + 1,
                             time := 2000 } ∧
      ∃ m ∈ (pingPendingNode.handle_event gen0 2000 tickEvent).2.1,
        m.type = MessageType.ping ∧ m.target_id = pingInfo.target_id ∧
        m.content = Content.ping (pingInfo.retry_count + 1) ∧
        m.send_time = some 2000) ∧
    (DHTNode.MAX_RETRIES ≤ pingInfo.retry_count →
      pendingLookup
        ((pingPendingNode.handle_event gen0 2000
          tickEvent).1).pending_responses 7 = none ∧
      ∀ c ∈ ((pingPendingNode.handle_event gen0 2000
          tickEvent).1).routing_table.all_nodes,
        c.id ≠ pingInfo.target_id)) :=
  ⟨⟨rfl, by decide, by decide, by decide, rfl, by decide,
      init_WF [0] 8 8⟩,
    c8_ping_timeout_retry_and_evict pingPendingNode gen0 2000 tickEvent
      7 pingInfo rfl (by decide) (by decide) (by decide) rfl (by decide)
      (init_WF [0] 8 8)⟩

end Grape
